import Mathlib

/-!
Forecasting engine of `server.js`: a shallow embedding.

The definitions below follow `src/server.js`: the class `UltimatePredictor`
(lines 72-364) and the two scheduled tasks (lines 471-594).

Conventions of the embedding.

* Strings are Lean strings, handled through their list of characters.
* The result of `parseInt` is a `JsInt`: an integer or `NaN`.
* Floating point quantities (confidence, training loss, `Math.random()`) are
  exact rationals; where the code can produce a non-finite number it is a
  `JsNumber`, which adds `NaN` and the two infinities.
* A Mongoose collection is the list of its documents in insertion order; a
  document is identified by its position. `create` always succeeds; the `save`
  of a resolved forecast rejects a `NaN` in the `Number` path `actualNumber`.
* `new Date()` / `Date.now()` are read from a clock passed as an argument, and
  `Math.random()` from draws passed as arguments.
* The tensor library is not part of the repository: a loaded model is the
  function from an input row to the output row of `model.predict`, or a thrown
  error, and `model.fit` is an argument of `trainModels`.
-/

namespace Akela

/-! ## JavaScript values -/

/-- An integer-valued JavaScript number as `parseInt` produces it: `NaN` or an
integer. -/
inductive JsInt where
  | nan : JsInt
  | int (v : Int) : JsInt
  deriving DecidableEq, Repr

namespace JsInt

/-- Strict equality `a === b` of two numbers: `NaN` equals nothing. -/
def strictEq : JsInt → JsInt → Bool
  | int a, int b => decide (a = b)
  | _, _ => false

/-- The expression `(a + 1) % 10`; `%` is the truncated remainder of JavaScript. -/
def succMod10 : JsInt → JsInt
  | int a => int (Int.tmod (a + 1) 10)
  | nan => nan

/-- The comparison `a >= k` for an integer constant `k`; false on `NaN`. -/
def ge (a : JsInt) (k : Int) : Bool :=
  match a with
  | int v => decide (k ≤ v)
  | nan => false

end JsInt

/-- A JavaScript number that may be non-finite: used for losses and confidences. -/
inductive JsNumber where
  | nan : JsNumber
  | negInf : JsNumber
  | fin (q : ℚ) : JsNumber
  | posInf : JsNumber
  deriving DecidableEq

namespace JsNumber

/-- The comparison `a < b`; false as soon as one side is `NaN`. -/
def lt : JsNumber → JsNumber → Bool
  | nan, _ => false
  | _, nan => false
  | posInf, _ => false
  | _, negInf => false
  | negInf, _ => true
  | _, posInf => true
  | fin a, fin b => decide (a < b)

/-- The sum `a + c` with a finite constant `c`. -/
def addConst (a : JsNumber) (c : ℚ) : JsNumber :=
  match a with
  | fin q => fin (q + c)
  | other => other

/-- The call `Math.min(c, a)` with a finite constant `c`. -/
def minConst (c : ℚ) (a : JsNumber) : JsNumber :=
  match a with
  | nan => nan
  | negInf => negInf
  | fin q => fin (min c q)
  | posInf => fin c

/-- The quotient `a / b` of two finite numbers. -/
def div (a b : ℚ) : JsNumber :=
  if b = 0 then
    (if a = 0 then nan else if 0 < a then posInf else negInf)
  else fin (a / b)

end JsNumber

/-! ## `parseInt` -/

/-- White space skipped by `parseInt` at the start of its argument. -/
def isJsWhiteSpace (c : Char) : Bool :=
  let n := c.toNat
  n = 0x09 || n = 0x0A || n = 0x0B || n = 0x0C || n = 0x0D || n = 0x20 ||
  n = 0xA0 || n = 0x1680 || (0x2000 ≤ n && n ≤ 0x200A) || n = 0x2028 ||
  n = 0x2029 || n = 0x202F || n = 0x205F || n = 0x3000 || n = 0xFEFF

/-- Value of a character as a digit in the given radix (10 or 16), if it is one. -/
def digitValue (radix : Nat) (c : Char) : Option Nat :=
  let n := c.toNat
  if 48 ≤ n ∧ n ≤ 57 then some (n - 48)
  else if radix = 16 ∧ 97 ≤ n ∧ n ≤ 102 then some (n - 87)
  else if radix = 16 ∧ 65 ≤ n ∧ n ≤ 70 then some (n - 55)
  else none

/-- Reads the longest prefix of digits; returns the number of digits read and
their value. -/
def readDigits (radix : Nat) : List Char → Nat → Nat → Nat × Nat
  | [], count, acc => (count, acc)
  | c :: cs, count, acc =>
    match digitValue radix c with
    | some d => readDigits radix cs (count + 1) (acc * radix + d)
    | none => (count, acc)

/-- The digits of `parseInt` once white space and sign are gone: a `0x` prefix
selects radix 16. -/
def parseUnsigned (cs : List Char) : Option Nat :=
  let body : Nat × List Char :=
    match cs with
    | '0' :: 'x' :: rest => (16, rest)
    | '0' :: 'X' :: rest => (16, rest)
    | _ => (10, cs)
  let r := readDigits body.1 body.2 0 0
  if r.1 = 0 then none else some r.2

/-- The call `parseInt(s)` on a list of characters, without radix argument. -/
def parseIntChars (cs : List Char) : JsInt :=
  let trimmed := cs.dropWhile isJsWhiteSpace
  match trimmed with
  | '-' :: rest =>
    match parseUnsigned rest with
    | some v => JsInt.int (-(v : Int))
    | none => JsInt.nan
  | '+' :: rest =>
    match parseUnsigned rest with
    | some v => JsInt.int (v : Int)
    | none => JsInt.nan
  | _ =>
    match parseUnsigned trimmed with
    | some v => JsInt.int (v : Int)
    | none => JsInt.nan

/-- The call `parseInt(s)` of a string. -/
def parseInt (s : String) : JsInt := parseIntChars s.data

/-- The call `n.toString()` of an integer-valued number. -/
def jsToString : JsInt → List Char
  | JsInt.int v => if v < 0 then '-' :: (Nat.repr v.natAbs).data else (Nat.repr v.natAbs).data
  | JsInt.nan => ['N', 'a', 'N']

/-- The call `s.padStart(4, '0')`. -/
def padStart4 (cs : List Char) : List Char :=
  List.replicate (4 - cs.length) '0' ++ cs

/-- The expression `x + 1` on an integer-valued number. -/
def jsSucc : JsInt → JsInt
  | JsInt.int v => JsInt.int (v + 1)
  | JsInt.nan => JsInt.nan

/-- Method `incrementIssueNumber` (lines 357-363). The empty string is the falsy
argument. -/
def incrementIssueNumber (issueNumber : String) : String :=
  if issueNumber = "" then "20231115001"
  else
    let cs := issueNumber.data
    let lastFourDigits := cs.drop (cs.length - 4)
    let incremented := padStart4 (jsToString (jsSucc (parseIntChars lastFourDigits)))
    String.mk (cs.take (cs.length - 4) ++ incremented)

/-! ## Records -/

/-- A document of the `Data` collection (`DataSchema`, lines 43-48). -/
structure DataRec where
  issueNumber : String
  number : String
  size : String
  timestamp : Nat
  deriving DecidableEq, Repr

/-- The value of a history record, `parseInt(item.number)`. -/
def DataRec.value (d : DataRec) : JsInt := parseInt d.number

/-- A confidence as `predict` returns it: a number, or the string that
`toFixed(2)` makes of a number. -/
inductive Confidence where
  | num (c : JsNumber) : Confidence
  | fixed2 (c : JsNumber) : Confidence
  deriving DecidableEq

/-- The object returned by `predict` and `fallbackPrediction`. -/
structure Forecast where
  issueNumber : String
  prediction : JsInt
  confidence : Confidence
  deriving DecidableEq

/-- The object returned by `applyPatternRecognition`. -/
structure Adjusted where
  prediction : JsInt
  confidence : JsNumber
  deriving DecidableEq

/-! ## The model registry -/

/-- The keys of `this.models`, in the order the constructor inserts them
(lines 74-82); `for (const modelType in this.models)` visits them in that order. -/
inductive Tier where
  | ultra | cnn | lstm | gru | transformer | hybrid | ensemble
  deriving DecidableEq, Repr

/-- The key of a tier in `this.models`. -/
def Tier.name : Tier → String
  | .ultra => "ultra"
  | .cnn => "cnn"
  | .lstm => "lstm"
  | .gru => "gru"
  | .transformer => "transformer"
  | .hybrid => "hybrid"
  | .ensemble => "ensemble"

/-- The tiers in iteration order. -/
def Tier.all : List Tier :=
  [.ultra, .cnn, .lstm, .gru, .transformer, .hybrid, .ensemble]

/-- The numeric fields the constructor sets on the predictor (lines 83-90). -/
def numericFields : List (String × Nat) :=
  [("ULTRA_LOW_THRESHOLD", 50), ("CNN_THRESHOLD", 200), ("LSTM_THRESHOLD", 500),
   ("GRU_THRESHOLD", 800), ("TRANSFORMER_THRESHOLD", 1000), ("HYBRID_THRESHOLD", 1500),
   ("ENSEMBLE_THRESHOLD", 2000), ("TIMESTEPS", 20)]

/-- The threshold constant the constructor declares for each tier (lines 83-89). -/
def eligibilityThreshold : Tier → Nat
  | .ultra => 50
  | .cnn => 200
  | .lstm => 500
  | .gru => 800
  | .transformer => 1000
  | .hybrid => 1500
  | .ensemble => 2000

/-- The field `this.TIMESTEPS`. -/
def TIMESTEPS : Nat := 20

/-- The call `s.toUpperCase()` on the characters of a tier key. -/
def toUpperCase (cs : List Char) : List Char := cs.map Char.toUpper

/-- The property name built at lines 123 and 241: the upper-cased key followed
by `_THRESHOLD`. -/
def thresholdKey (t : Tier) : String :=
  String.mk (toUpperCase t.name.data ++ "_THRESHOLD".data)

/-- The lookup of the built property name on the predictor, `none` when the
predictor has no such field (the lookup is then `undefined`). -/
def thresholdOf (t : Tier) : Option Nat :=
  numericFields.lookup (thresholdKey t)

/-- The test `data.length >= this[...]`: a comparison with `undefined` is false. -/
def meetsThreshold (n : Nat) (t : Tier) : Bool :=
  match thresholdOf t with
  | some th => decide (th ≤ n)
  | none => false

/-- A loaded model: the row `model.predict(input).arraySync()[0]` for the input
row, or `none` when inference throws. -/
structure TfModel where
  predict : List JsInt → Option (List ℚ)

/-- An entry of `this.models`. -/
structure ModelState where
  model : Option TfModel
  loss : JsNumber

/-- The field `this.models`. -/
abbrev Registry := Tier → ModelState

/-- The registry the constructor builds (lines 74-82). -/
def Registry.initial : Registry := fun _ => { model := none, loss := JsNumber.posInf }

/-! ## `prepareTrainingData` -/

/-- The call `data.slice(a, b)` for `0 ≤ a ≤ b`. -/
def slice {α : Type} (data : List α) (a b : Nat) : List α :=
  (data.drop a).take (b - a)

/-- The loop of `prepareTrainingData` (lines 138-142) from index `i` on, with
the arrays built so far; `fuel` bounds the remaining iterations. -/
def prepareLoop (data : List DataRec) :
    Nat → Nat → List (List JsInt) → List JsInt → List (List JsInt) × List JsInt
  | 0, _, sequences, labels => (sequences, labels)
  | fuel + 1, i, sequences, labels =>
    if i < data.length then
      let sequence := (slice data (i - TIMESTEPS) i).map DataRec.value
      let label := (data.getD i ⟨"", "", "", 0⟩).value
      prepareLoop data fuel (i + 1) (sequences ++ [sequence]) (labels ++ [label])
    else (sequences, labels)

/-- Method `prepareTrainingData` (lines 134-148): the two arrays handed to the
tensor constructors. -/
def prepareTrainingData (data : List DataRec) : List (List JsInt) × List JsInt :=
  prepareLoop data data.length TIMESTEPS [] []

/-! ## `applyPatternRecognition` -/

/-- The call `arr.every((n, i) => p n i)`. -/
def everyIdx {α : Type} (p : α → Nat → Bool) (arr : List α) : Bool :=
  arr.enum.all (fun x => p x.2 x.1)

/-- Method `applyPatternRecognition` (lines 272-317). An index read past the end
of `recentNumbers` is `undefined`, which compares and adds like `NaN`. -/
def applyPatternRecognition (data : List DataRec) (prediction : JsInt)
    (confidence : JsNumber) : Adjusted :=
  let recentNumbers := (data.take 10).map DataRec.value
  let lastNumber := recentNumbers.getD 0 JsInt.nan
  if 3 ≤ (recentNumbers.filter (fun n => n.strictEq lastNumber)).length then
    { prediction := lastNumber.succMod10
      confidence := JsNumber.minConst (95 / 100) (confidence.addConst (15 / 100)) }
  else
    let first3 := recentNumbers.take 3
    let isSequential := everyIdx
      (fun n i => i == 0 || n.strictEq (first3.getD (i - 1) JsInt.nan).succMod10) first3
    if isSequential then
      { prediction := (recentNumbers.getD 0 JsInt.nan).succMod10
        confidence := JsNumber.minConst (95 / 100) (confidence.addConst (2 / 10)) }
    else
      let isAlternating := everyIdx
        (fun n i => decide (i < 2) || n.strictEq (recentNumbers.getD (i - 2) JsInt.nan))
        (recentNumbers.take 4)
      if isAlternating then
        { prediction := recentNumbers.getD 1 JsInt.nan
          confidence := JsNumber.minConst (95 / 100) (confidence.addConst (1 / 10)) }
      else
        { prediction := prediction
          confidence := JsNumber.minConst (95 / 100) (confidence.addConst (5 / 100)) }

/-! ## `fallbackPrediction` -/

namespace JsNumber

/-- The expression `a + b * x` with finite constants `a` and `b`. -/
def affine (a b : ℚ) : JsNumber → JsNumber
  | nan => nan
  | fin q => fin (a + b * q)
  | posInf => if 0 < b then posInf else if b < 0 then negInf else nan
  | negInf => if 0 < b then negInf else if b < 0 then posInf else nan

end JsNumber

/-- The statement `frequencies[num]++` for an index `num`. -/
def bump : List Nat → Nat → List Nat
  | [], _ => []
  | f :: fs, 0 => (f + 1) :: fs
  | f :: fs, k + 1 => f :: bump fs k

/-- The body of the `forEach` at lines 323-325. -/
def countStep (frequencies : List Nat) (num : JsInt) : List Nat :=
  match num with
  | JsInt.int v => if 0 ≤ v ∧ v ≤ 9 then bump frequencies v.toNat else frequencies
  | JsInt.nan => frequencies

/-- The array `frequencies` after the `forEach` (lines 320-325). -/
def digitFrequencies (data : List DataRec) : List Nat :=
  ((data.take 15).map DataRec.value).foldl countStep (List.replicate 10 0)

/-- The element `frequencies[i]`. -/
def freqAt (frequencies : List Nat) (i : Nat) : Nat := frequencies.getD i 0

/-- One iteration of the loop at lines 332-340 on the pair `(minFrequency,
candidates)`; `none` is the initial `Infinity`. -/
def candidateStep (frequencies : List Nat) (st : Option Nat × List Nat) (i : Nat) :
    Option Nat × List Nat :=
  let f := freqAt frequencies i
  match st.1 with
  | none => (some f, [i])
  | some m =>
    if f < m then (some f, [i])
    else if f = m then (some m, st.2 ++ [i])
    else st

/-- The array `candidates` after the loop at lines 332-340. -/
def fallbackCandidates (frequencies : List Nat) : List Nat :=
  ((List.range 10).foldl (candidateStep frequencies) (none, [])).2

/-- The element `candidates[Math.floor(r * candidates.length)]` (line 343) for
the draw `r` of `Math.random()`; `none` is `undefined`. -/
def pickCandidate (candidates : List Nat) (r : ℚ) : Option Nat :=
  let idx : Int := ⌊r * (candidates.length : ℚ)⌋
  if 0 ≤ idx then candidates.get? idx.toNat else none

/-- The number `0.6 + (0.3 * (1 - predictionFrequency / total))` (lines 346-348). -/
def fallbackConfidence (frequencies : List Nat) (prediction : Option Nat) : JsNumber :=
  let total : Nat := frequencies.foldl (fun a b => a + b) 0
  let ratio :=
    match prediction with
    | some d =>
      (match frequencies.get? d with
       | some pf => JsNumber.div (pf : ℚ) (total : ℚ)
       | none => JsNumber.nan)
    | none => JsNumber.nan
  (ratio.affine 1 (-1)).affine (6 / 10) (3 / 10)

/-- Method `fallbackPrediction` (lines 319-355) with the draw `r` of
`Math.random()`; `none` when `data[0].issueNumber` throws on an empty array. -/
def fallbackPrediction (data : List DataRec) (r : ℚ) : Option Forecast :=
  let frequencies := digitFrequencies data
  let candidates := fallbackCandidates frequencies
  let prediction := pickCandidate candidates r
  let confidence := fallbackConfidence frequencies prediction
  match data with
  | [] => none
  | first :: _ =>
    some { issueNumber := incrementIssueNumber first.issueNumber
           prediction := (match prediction with
                          | some d => JsInt.int (d : Int)
                          | none => JsInt.nan)
           confidence := Confidence.fixed2 confidence }

/-! ## `predict` -/

/-- The loop `while (sequence.length < this.TIMESTEPS) sequence.unshift(0)`
(lines 231-233); `fuel` bounds the iterations. -/
def padLoop : Nat → List JsInt → List JsInt
  | 0, sequence => sequence
  | fuel + 1, sequence =>
    if sequence.length < TIMESTEPS then padLoop fuel (JsInt.int 0 :: sequence)
    else sequence

/-- The input row built at lines 230-233. -/
def inputSequence (data : List DataRec) : List JsInt :=
  padLoop TIMESTEPS ((data.drop (data.length - TIMESTEPS)).map DataRec.value)

/-- One iteration of the selection loop (lines 240-247) on the pair
`(bestModelType, minLoss)`. -/
def selectStep (models : Registry) (n : Nat) (st : Tier × JsNumber) (modelType : Tier) :
    Tier × JsNumber :=
  if meetsThreshold n modelType && (models modelType).model.isSome &&
      (models modelType).loss.lt st.2 then
    (modelType, (models modelType).loss)
  else st

/-- The value of `bestModelType` after the selection loop (lines 237-247). -/
def selectBest (models : Registry) (n : Nat) : Tier :=
  (Tier.all.foldl (selectStep models n) (Tier.ultra, JsNumber.posInf)).1

/-- The base prediction and confidence read from an output row (lines 251-253):
`indexOf` of the maximum, and the maximum over the sum. -/
def baseOfRow (row : List ℚ) : JsInt × JsNumber :=
  match row with
  | [] => (JsInt.int (-1), JsNumber.negInf)
  | x :: xs =>
    let m := xs.foldl max x
    (JsInt.int (row.indexOf m : Nat), JsNumber.div m (row.foldl (fun a b => a + b) (0 : ℚ)))

/-- The tier whose model `predict` runs inference on, if it runs any
(lines 237-250). -/
def inferenceTier (models : Registry) (data : List DataRec) : Option Tier :=
  if data.length < 5 then none
  else
    let best := selectBest models data.length
    if (models best).model.isSome then some best else none

/-- Method `predict` (lines 220-270) with the draws `r1`, `r2` of
`Math.random()` in the order the taken branch makes them. -/
def predict (models : Registry) (data : List DataRec) (r1 r2 : ℚ) : Option Forecast :=
  if data.length < 5 then
    let known := match data with
      | [] => ""
      | first :: _ => first.issueNumber
    some { issueNumber := incrementIssueNumber (if known = "" then "20231115000" else known)
           prediction := JsInt.int ⌊r1 * 10⌋
           confidence := Confidence.fixed2 (JsNumber.fin (r2 * (3 / 10) + 5 / 10)) }
  else
    let sequence := inputSequence data
    let bestModelType := selectBest models data.length
    match (models bestModelType).model with
    | some model =>
      (match model.predict sequence with
       | some row =>
         let base := baseOfRow row
         let adjusted := applyPatternRecognition data base.1 base.2
         (match data with
          | [] => fallbackPrediction data r1
          | first :: _ =>
            some { issueNumber := incrementIssueNumber first.issueNumber
                   prediction := adjusted.prediction
                   confidence := Confidence.num adjusted.confidence })
       | none => fallbackPrediction data r1)
    | none => fallbackPrediction data r1

/-! ## Stores -/

/-- A document of the `Prediction` collection (`PredictionSchema`, lines 31-41);
`none` is `null`. -/
structure PredictionRec where
  issueNumber : String
  numberPrediction : JsInt
  sizePrediction : String
  confidence : Confidence
  result : Option String
  actualNumber : Option JsInt
  actualSize : Option String
  timestamp : Nat
  type : String
  deriving DecidableEq

/-- A document of the `SessionStat` collection (`SessionStatSchema`, lines 59-64). -/
structure SessionStatRec where
  wins : Int
  losses : Int
  total : Int
  timestamp : Nat
  deriving DecidableEq, Repr

/-- The three collections the scheduled tasks read and write. -/
structure Stores where
  data : List DataRec
  predictions : List PredictionRec
  stats : List SessionStatRec
  deriving DecidableEq

/-- The query `Data.find().sort({ timestamp: -1 }).limit(k)`: newest first,
documents of equal timestamp in insertion order. -/
def findRecent (k : Nat) (store : List DataRec) : List DataRec :=
  (store.insertionSort (fun a b => b.timestamp ≤ a.timestamp)).take k

/-- The query `Data.findOne({ issueNumber })`. -/
def findOneData (store : List DataRec) (issueNumber : String) : Option DataRec :=
  store.find? (fun d => d.issueNumber == issueNumber)

/-- The query `Prediction.findOne({ issueNumber })`. -/
def findOnePrediction (store : List PredictionRec) (issueNumber : String) :
    Option PredictionRec :=
  store.find? (fun p => p.issueNumber == issueNumber)

/-! ## The fetch/predict task (lines 471-539) -/

/-- An element of `response.data.data.list`; `none` is an absent field. -/
structure UpstreamItem where
  issueNumber : String
  winNumber : Option String
  number : Option String
  deriving DecidableEq, Repr

/-- An element of `newData` (lines 476-480). -/
structure NewItem where
  issueNumber : String
  number : String
  size : String
  deriving DecidableEq, Repr

/-- The expression `item.winNumber || item.number || '0'`: the first operand
that is present and not the empty string. -/
def drawnNumber (item : UpstreamItem) : String :=
  match item.winNumber with
  | some w => if w = "" then
      (match item.number with
       | some m => if m = "" then "0" else m
       | none => "0")
    else w
  | none =>
    match item.number with
    | some m => if m = "" then "0" else m
    | none => "0"

/-- The mapping at lines 476-480. -/
def toNewItem (item : UpstreamItem) : NewItem :=
  { issueNumber := item.issueNumber
    number := drawnNumber item
    size := if (parseInt (drawnNumber item)).ge 5 then "BIG" else "SMALL" }

/-- The loop at lines 483-489 from the `k`-th item on; a created document gets
the time `clock k`. -/
def saveLoop (clock : Nat → Nat) : List NewItem → Nat → List DataRec → List DataRec
  | [], _, store => store
  | item :: rest, k, store =>
    match findOneData store item.issueNumber with
    | some _ => saveLoop clock rest (k + 1) store
    | none =>
      saveLoop clock rest (k + 1)
        (store ++ [{ issueNumber := item.issueNumber, number := item.number
                     size := item.size, timestamp := clock k }])

/-- The document built at lines 499-509. -/
def toPredictionRec (prediction : Forecast) (now : Nat) : PredictionRec :=
  { issueNumber := prediction.issueNumber
    numberPrediction := prediction.prediction
    sizePrediction := if prediction.prediction.ge 5 then "BIG" else "SMALL"
    confidence := prediction.confidence
    result := none
    actualNumber := none
    actualSize := none
    timestamp := now
    type := "auto" }

/-- One run of the fetch/predict task (lines 471-539). `response` is the list
`response.data.data.list`, `none` when the request fails or the list is
missing; `clock k` is the time at the `k`-th item and `clock` of the batch
length the time of the forecast. The notification is not a store. -/
def fetchPredictCycle (models : Registry) (response : Option (List UpstreamItem))
    (clock : Nat → Nat) (r1 r2 : ℚ) (s : Stores) : Stores :=
  match response with
  | none => s
  | some list =>
    let newData := list.map toNewItem
    let saved := saveLoop clock newData 0 s.data
    let allData := findRecent 1000 saved
    match predict models allData.reverse r1 r2 with
    | none => { s with data := saved }
    | some prediction =>
      match findOnePrediction s.predictions prediction.issueNumber with
      | some _ => { s with data := saved }
      | none =>
        { s with data := saved
                 predictions := s.predictions ++ [toPredictionRec prediction (clock list.length)] }

/-! ## The verification task (lines 542-594) -/

/-- The call `parseInt(x)` of an integer-valued number: its decimal string
parses back to it, and `NaN` gives `NaN`. -/
def parseIntNum (x : JsInt) : JsInt := x

/-- Position of the document `SessionStat.findOne().sort({ timestamp: -1 })`
returns: the newest, the first of them among equal timestamps. -/
def latestStat : List SessionStatRec → Option Nat
  | [] => none
  | s :: rest =>
    match latestStat rest with
    | none => some 0
    | some j => if s.timestamp < (rest.getD j s).timestamp then some (j + 1) else some 0

/-- The change a `save` makes to the document at position `i`. -/
def updateAt {α : Type} (f : α → α) : Nat → List α → List α
  | _, [] => []
  | 0, x :: xs => f x :: xs
  | i + 1, x :: xs => x :: updateAt f i xs

/-- The counting at lines 563-569 on a `SessionStat` document. -/
def countResult (result : String) (now : Nat) (stat : SessionStatRec) : SessionStatRec :=
  if result = "win" then
    { stat with wins := stat.wins + 1, total := stat.total + 1, timestamp := now }
  else
    { stat with losses := stat.losses + 1, total := stat.total + 1, timestamp := now }

/-- The session statistics update (lines 558-571). -/
def updateSessionStat (result : String) (now : Nat) (stats : List SessionStatRec) :
    List SessionStatRec :=
  match latestStat stats with
  | none => stats ++ [countResult result now { wins := 0, losses := 0, total := 0, timestamp := now }]
  | some i => updateAt (countResult result now) i stats

/-- The lookup `latestData.find(d => d.issueNumber === prediction.issueNumber)`. -/
def findActual (latestData : List DataRec) (prediction : PredictionRec) : Option DataRec :=
  latestData.find? (fun d => d.issueNumber == prediction.issueNumber)

/-- The value assigned to `prediction.result` at line 552. -/
def verdict (prediction : PredictionRec) (actualData : DataRec) : String :=
  if (parseIntNum prediction.numberPrediction).strictEq (parseInt actualData.number) then "win"
  else "loss"

/-- The assignments at lines 550-552. -/
def resolve (prediction : PredictionRec) (actualData : DataRec) : PredictionRec :=
  { prediction with
    actualNumber := some (parseInt actualData.number)
    actualSize := some actualData.size
    result := some (verdict prediction actualData) }

/-- Whether `prediction.save()` (line 554) accepts the document: the path
`actualNumber` is declared `Number` (line 37), which does not take `NaN`; the
call then rejects. -/
def saveAccepts (prediction : PredictionRec) : Bool :=
  match prediction.actualNumber with
  | some JsInt.nan => false
  | _ => true

/-- The loop at lines 547-590 over the documents of the `Prediction`
collection from position `k` on: those with `result: null` are the pending
ones; `clock k` is the time at the `k`-th document. A rejected `save` throws to
the `catch` at lines 591-593, which ends the run: that document and those
after it stay as stored, and the statistics are not touched for it. -/
def verifyLoop (latestData : List DataRec) (clock : Nat → Nat) :
    List PredictionRec → Nat → List SessionStatRec → List PredictionRec × List SessionStatRec
  | [], _, stats => ([], stats)
  | prediction :: rest, k, stats =>
    match prediction.result with
    | some _ =>
      let out := verifyLoop latestData clock rest (k + 1) stats
      (prediction :: out.1, out.2)
    | none =>
      match findActual latestData prediction with
      | none =>
        let out := verifyLoop latestData clock rest (k + 1) stats
        (prediction :: out.1, out.2)
      | some actualData =>
        let resolved := resolve prediction actualData
        if saveAccepts resolved then
          let stats1 := updateSessionStat (verdict prediction actualData) (clock k) stats
          let out := verifyLoop latestData clock rest (k + 1) stats1
          (resolved :: out.1, out.2)
        else (prediction :: rest, stats)

/-- One run of the verification task (lines 542-594). -/
def verificationCycle (clock : Nat → Nat) (s : Stores) : Stores :=
  let latestData := findRecent 10 s.data
  let out := verifyLoop latestData clock s.predictions 0 s.stats
  { s with predictions := out.1, stats := out.2 }

/-! ## Sample inputs -/

/-- A model whose output row puts all the mass on digit 7. -/
def sampleModel : TfModel :=
  { predict := fun _ => some [0, 0, 0, 0, 0, 0, 0, 1, 0, 0] }

/-- The registry after `initModels`: every tier has a model, no tier has been
trained. -/
def loadedRegistry : Registry := fun _ => { model := some sampleModel, loss := JsNumber.posInf }

/-- A registry in which the `cnn` tier has been trained. -/
def cnnTrainedRegistry : Registry := fun t =>
  if t = Tier.cnn then { model := some sampleModel, loss := JsNumber.fin 1 }
  else { model := some sampleModel, loss := JsNumber.posInf }

/-- History record number `k` of the samples: issue `2023111500k`, drawn digit `k`. -/
def sampleRec (k : Nat) : DataRec :=
  { issueNumber := String.mk ("2023111500".data ++ (Nat.repr k).data)
    number := Nat.repr k, size := if 5 ≤ k then "BIG" else "SMALL", timestamp := k }

/-- Five records, oldest first: issues `20231115001` to `20231115005`. -/
def fiveRecords : List DataRec := (List.range' 1 5).map sampleRec

/-! ## Definitions used in the statements -/

/-- The window that ends just before index `i`: the values of `H[i-W .. i)`. -/
def windowAt (data : List DataRec) (i : Nat) : List JsInt :=
  (slice data (i - TIMESTEPS) i).map DataRec.value

/-- The label at index `i`: the value of `H[i]`. -/
def labelAt (data : List DataRec) (i : Nat) : JsInt :=
  (data.getD i ⟨"", "", "", 0⟩).value

/-- The issue number `predict` puts in its result, as a function of the array
it is given: the increment of the issue number at index 0. -/
def forecastIssue (data : List DataRec) : String :=
  match data with
  | [] => incrementIssueNumber "20231115000"
  | first :: _ =>
    if data.length < 5 then
      incrementIssueNumber (if first.issueNumber = "" then "20231115000" else first.issueNumber)
    else incrementIssueNumber first.issueNumber

/-- History records, newest first, whose ten values are 3,3,3,1,2,4,5,6,7,8. -/
def repeatingRecords : List DataRec :=
  ["3", "3", "3", "1", "2", "4", "5", "6", "7", "8"].map
    (fun s => { issueNumber := "20231115010", number := s, size := "SMALL", timestamp := 0 })

/-- Fifteen history records whose digits 0 to 4 occur twice and 5 to 9 once. -/
def fifteenRecords : List DataRec :=
  ["0", "0", "1", "1", "2", "2", "3", "3", "4", "4", "5", "6", "7", "8", "9"].map
    (fun s => { issueNumber := "20231115015", number := s, size := "SMALL", timestamp := 0 })

/-- Invariant of the candidate loop after the indices below `k`: `candidates`
holds, in increasing order, the indices below `k` whose frequency is the
minimum over those indices. -/
def CandInv (freqs : List Nat) (k : Nat) (st : Option Nat × List Nat) : Prop :=
  (k = 0 ∧ st = (none, [])) ∨
  (0 < k ∧ ∃ m, st = (some m, (List.range k).filter (fun i => decide (freqAt freqs i = m))) ∧
    (∀ i, i < k → m ≤ freqAt freqs i) ∧ ∃ i, i < k ∧ freqAt freqs i = m)

/-- The issue number the forecast of a run is made for, given the upstream
list and the `Data` collection before the run. -/
def cycleIssue (clock : Nat → Nat) (list : List UpstreamItem) (data : List DataRec) : String :=
  forecastIssue (findRecent 1000 (saveLoop clock (list.map toNewItem) 0 data)).reverse

/-- What a run of the verification loop does to a single document of the
`Prediction` collection when it reaches it and the `save` is accepted. -/
def verifyOne (latestData : List DataRec) (prediction : PredictionRec) : PredictionRec :=
  match prediction.result with
  | some _ => prediction
  | none =>
    match findActual latestData prediction with
    | none => prediction
    | some actualData => resolve prediction actualData

/-- A document the verification loop passes over: already resolved, or without
a record of its issue in `latestData`. -/
def Settled (latestData : List DataRec) (prediction : PredictionRec) : Prop :=
  prediction.result ≠ none ∨ findActual latestData prediction = none

/-- The documents of the collection on which a run of the verification loop
changes nothing: documents it passes over, up to the end or up to a pending
document whose `save` rejects. -/
def Quiet (latestData : List DataRec) : List PredictionRec → Prop
  | [] => True
  | p :: rest =>
    (Settled latestData p ∧ Quiet latestData rest) ∨
    (p.result = none ∧
      ∃ o, findActual latestData p = some o ∧ saveAccepts (resolve p o) = false)

/-- The invariant of a `SessionStat` document. -/
def StatOk (stat : SessionStatRec) : Prop := stat.total = stat.wins + stat.losses

/-- A pending forecast of issue `20231115001`, predicted number 1. -/
def pendingOldest : PredictionRec :=
  { issueNumber := "20231115001", numberPrediction := JsInt.int 1, sizePrediction := "SMALL"
    confidence := Confidence.num (JsNumber.fin (1 / 2)), result := none
    actualNumber := none, actualSize := none, timestamp := 12, type := "auto" }

/-- A pending forecast of issue `202311150011`, predicted number 4. -/
def pendingNewest : PredictionRec :=
  { issueNumber := "202311150011", numberPrediction := JsInt.int 4, sizePrediction := "SMALL"
    confidence := Confidence.num (JsNumber.fin (1 / 2)), result := none
    actualNumber := none, actualSize := none, timestamp := 12, type := "auto" }

/-- Stores with eleven history records (issue `k` drawn at time `k`), one
pending forecast for the oldest issue and one for the newest, and no session
statistics yet. -/
def elevenStores : Stores :=
  { data := (List.range' 1 11).map sampleRec
    predictions := [pendingOldest, pendingNewest]
    stats := [] }

/-- A history record of issue `20231115002` whose number does not parse. -/
def abcRecord : DataRec :=
  { issueNumber := "20231115002", number := "abc", size := "SMALL", timestamp := 2 }

/-- A pending forecast of issue `20231115002`, predicted number 2. -/
def pendingSecond : PredictionRec :=
  { issueNumber := "20231115002", numberPrediction := JsInt.int 2, sizePrediction := "SMALL"
    confidence := Confidence.num (JsNumber.fin (1 / 2)), result := none
    actualNumber := none, actualSize := none, timestamp := 4, type := "auto" }

/-- A pending forecast of issue `20231115003`, predicted number 3. -/
def pendingThird : PredictionRec :=
  { issueNumber := "20231115003", numberPrediction := JsInt.int 3, sizePrediction := "SMALL"
    confidence := Confidence.num (JsNumber.fin (1 / 2)), result := none
    actualNumber := none, actualSize := none, timestamp := 4, type := "auto" }

/-- Stores with three history records, the second with the number `abc`, and
pending forecasts for the second and the third issue. -/
def abcStores : Stores :=
  { data := [sampleRec 1, abcRecord, sampleRec 3]
    predictions := [pendingSecond, pendingThird]
    stats := [] }

/-! ## `trainModels` -/

/-- The outcome of the call `model.fit(sequences, labels, ...)` (line 152): the
model with the weights the call leaves, and the last entry of
`history.history.loss`, `none` when the call throws. -/
structure FitOutcome where
  model : TfModel
  loss : Option JsNumber

/-- The training library: the outcome of `fit` on the model of a tier. -/
abbrev Fit := Tier → TfModel → List (List JsInt) → List JsInt → FitOutcome

/-- The registry with the entry of `modelType` replaced. -/
def setModel (models : Registry) (modelType : Tier) (st : ModelState) : Registry :=
  fun t => if t = modelType then st else models t

/-- The entry of a tier after `trainModel` has run on it (lines 151-163): the
loss is assigned only when `fit` returns; a `null` model makes `.fit` throw. -/
def fitEntry (fit : Fit) (modelType : Tier) (st : ModelState) (sequences : List (List JsInt))
    (labels : List JsInt) : ModelState :=
  match st.model with
  | none => st
  | some model =>
    match (fit modelType model sequences labels).loss with
    | some loss => { model := some (fit modelType model sequences labels).model, loss := loss }
    | none => { model := some (fit modelType model sequences labels).model, loss := st.loss }

/-- Method `trainModel` (lines 150-164); the `catch` swallows a throwing `fit`. -/
def trainModel (fit : Fit) (models : Registry) (modelType : Tier)
    (sequences : List (List JsInt)) (labels : List JsInt) : Registry :=
  match (models modelType).model with
  | none => models
  | some _ => setModel models modelType (fitEntry fit modelType (models modelType) sequences labels)

/-- The object `prepareTrainingData` returns (lines 144-147): `tf.tensor2d`
throws on an empty array of windows, which is `none`. -/
def trainingTensors (data : List DataRec) : Option (List (List JsInt) × List JsInt) :=
  if (prepareTrainingData data).1.isEmpty then none else some (prepareTrainingData data)

/-- One iteration of the loop at lines 122-126 on the registry and the list of
the tiers `trainModel` has been called for. -/
def trainStep (fit : Fit) (n : Nat) (sequences : List (List JsInt)) (labels : List JsInt)
    (st : Registry × List Tier) (modelType : Tier) : Registry × List Tier :=
  if meetsThreshold n modelType then
    (trainModel fit st.1 modelType sequences labels, st.2 ++ [modelType])
  else st

/-- Method `trainModels` (lines 116-132): the registry it leaves and the tiers
it has called `trainModel` for, in order. -/
def trainModels (fit : Fit) (models : Registry) (data : List DataRec) : Registry × List Tier :=
  if data.length < 10 then (models, [])
  else
    match trainingTensors data with
    | none => (models, [])
    | some tensors =>
      Tier.all.foldl (trainStep fit data.length tensors.1 tensors.2) (models, [])

/-- A training library whose `fit` always returns, with final loss 1. -/
def sampleFit : Fit := fun _ model _ _ => { model := model, loss := some (JsNumber.fin 1) }

/-- A training library whose `fit` throws for `cnn` and returns for the others. -/
def cnnFailingFit : Fit := fun t model _ _ =>
  if t = Tier.cnn then { model := model, loss := none }
  else { model := model, loss := some (JsNumber.fin 1) }

/-- Fifty history records, oldest first. -/
def fiftyRecords : List DataRec := (List.range' 1 50).map sampleRec

/-- Five hundred history records, oldest first. -/
def fiveHundredRecords : List DataRec := (List.range' 1 500).map sampleRec

/-- The eligible set of the selector as the specification words it: the tiers
whose declared threshold is at most the history length and whose model is not
`null`. -/
def eligibleBySpec (models : Registry) (n : Nat) (t : Tier) : Prop :=
  eligibilityThreshold t ≤ n ∧ (models t).model.isSome = true

/-- Two hundred history records, oldest first. -/
def twoHundredRecords : List DataRec := (List.range' 1 200).map sampleRec

/-- Stores holding two hundred history records and nothing else. -/
def twoHundredStores : Stores :=
  { data := twoHundredRecords, predictions := [], stats := [] }

/-- An upstream item of a new issue, drawn number 7. -/
def newDraw : UpstreamItem :=
  { issueNumber := "2023111500201", winNumber := some "7", number := none }

/-- The array the fetch/predict task passes to `predict` (lines 492-493), given
the upstream list and the stores before the run. -/
def cycleHistory (clock : Nat → Nat) (list : List UpstreamItem) (s : Stores) : List DataRec :=
  (findRecent 1000 (saveLoop clock (list.map toNewItem) 0 s.data)).reverse

/-- The comparison `a <= b` of two numbers; false as soon as one side is
`NaN`. -/
def JsNumber.le : JsNumber → JsNumber → Bool
  | JsNumber.nan, _ => false
  | _, JsNumber.nan => false
  | JsNumber.negInf, _ => true
  | _, JsNumber.posInf => true
  | JsNumber.posInf, _ => false
  | _, JsNumber.negInf => false
  | JsNumber.fin a, JsNumber.fin b => decide (a ≤ b)

/-- The first two conjuncts of the test at lines 241-242: the history is long
enough for the threshold looked up, and the tier has a model. -/
def passesTest (models : Registry) (n : Nat) (t : Tier) : Bool :=
  meetsThreshold n t && (models t).model.isSome

/-- The registries the code can produce: the one the constructor builds
(lines 74-82), the assignment of a model by `initModels` (lines 104 and 108),
whose loop visits `ultra` first, and a run of `trainModels`, the only caller of
the assignment to a loss (line 159). -/
inductive Reachable : Registry → Prop where
  | initial : Reachable Registry.initial
  | load (models : Registry) (t : Tier) (model : TfModel) :
      Reachable models → (t = Tier.ultra ∨ (models Tier.ultra).model.isSome = true) →
      Reachable (setModel models t { model := some model, loss := (models t).loss })
  | train (fit : Fit) (models : Registry) (data : List DataRec) :
      Reachable models → Reachable (trainModels fit models data).1

/-- The registry after `initModels` has given every tier a model, built by its
assignments in key order. -/
def startedRegistry : Registry :=
  Tier.all.foldl
    (fun models t => setModel models t { model := some sampleModel, loss := (models t).loss })
    Registry.initial

/-- The registry after `initModels` and one run of `trainModels` over two
hundred records. -/
def trainedRegistry : Registry := (trainModels sampleFit startedRegistry twoHundredRecords).1

/-- A decimal digit character, `0` to `9`. -/
abbrev isDecimalDigit (c : Char) : Prop := 48 ≤ c.toNat ∧ c.toNat ≤ 57

/-- The number the given digit characters write in base ten. -/
def decimalValue (digits : List Char) : Nat :=
  digits.foldl (fun acc c => acc * 10 + (c.toNat - 48)) 0

/-- The last four characters of an issue number. -/
def lastFour (issueNumber : String) : List Char :=
  issueNumber.data.drop (issueNumber.length - 4)

/-- The four-character, zero-padded decimal representation of a number below
10000. -/
def fourDigits (w : Nat) : List Char :=
  [Nat.digitChar (w / 1000 % 10), Nat.digitChar (w / 100 % 10), Nat.digitChar (w / 10 % 10),
   Nat.digitChar (w % 10)]

/-- History records built from the given numbers, in the given order. -/
def recordsOf (numbers : List String) : List DataRec :=
  numbers.map (fun s => { issueNumber := "20231115020", number := s, size := "SMALL"
                          timestamp := 0 })

/-- Ten records whose values, from index 0 on, are 3,2,1,5,6,7,8,9,0,4. -/
def descendingRecords : List DataRec :=
  recordsOf ["3", "2", "1", "5", "6", "7", "8", "9", "0", "4"]

/-- Thirteen records, oldest first, with values 1,3,5,7,9,1,3,5,7,9,4,4,4. -/
def thirteenRecords : List DataRec :=
  recordsOf ["1", "3", "5", "7", "9", "1", "3", "5", "7", "9", "4", "4", "4"]

/-- Two stored history records, of issues `20231115001` and `20231115002`. -/
def twoRecords : List DataRec := [sampleRec 1, sampleRec 2]

/-- A fetched batch that repeats a new issue and contains a stored one. -/
def repeatingBatch : List NewItem :=
  [{ issueNumber := "20231115003", number := "3", size := "SMALL" },
   { issueNumber := "20231115002", number := "9", size := "BIG" },
   { issueNumber := "20231115003", number := "8", size := "BIG" }]

/-- A fetched list that repeats issue `20231115003` and contains the stored
issue `20231115002`. -/
def fetchedBatch : List UpstreamItem :=
  [{ issueNumber := "20231115003", winNumber := some "3", number := none },
   { issueNumber := "20231115002", winNumber := none, number := some "9" },
   { issueNumber := "20231115003", winNumber := some "8", number := none }]

/-- Stores holding the two stored history records and nothing else. -/
def twoStores : Stores := { data := twoRecords, predictions := [], stats := [] }

/-- The test `num >= 0 && num <= 9` of line 324: the value is counted in
`frequencies`. -/
def isDigitValue : JsInt → Bool
  | JsInt.int v => decide (0 ≤ v ∧ v ≤ 9)
  | JsInt.nan => false

/-- The number `total` of line 346: the sum of `frequencies`. -/
def fallbackTotal (frequencies : List Nat) : Nat :=
  frequencies.foldl (fun a b => a + b) 0

/-- Twelve history records whose digits 0 and 1 occur twice and 2 to 9 once. -/
def twelveRecords : List DataRec :=
  recordsOf ["0", "0", "1", "1", "2", "3", "4", "5", "6", "7", "8", "9"]

/-! ## Selection (C1) -/

theorem thresholdOf_table (t : Tier) :
    thresholdOf t = if t = Tier.ultra then none else some (eligibilityThreshold t) := by
  cases t <;> decide

theorem thresholdOf_eq (t : Tier) (th : Nat) (h : thresholdOf t = some th) :
    t ≠ Tier.ultra ∧ th = eligibilityThreshold t := by
  rw [thresholdOf_table] at h
  split at h
  · exact absurd h (by simp)
  · rename_i hne
    exact ⟨hne, (Option.some.inj h).symm⟩

theorem meetsThreshold_le (n : Nat) (t : Tier) (h : meetsThreshold n t = true) :
    t ≠ Tier.ultra ∧ eligibilityThreshold t ≤ n := by
  unfold meetsThreshold at h
  cases hth : thresholdOf t with
  | none => simp [hth] at h
  | some th =>
    simp [hth] at h
    obtain ⟨h1, h2⟩ := thresholdOf_eq t th hth
    exact ⟨h1, h2 ▸ h⟩

theorem selectStep_inv (models : Registry) (n : Nat) (st : Tier × JsNumber) (t : Tier)
    (h : st.1 = Tier.ultra ∨ eligibilityThreshold st.1 ≤ n) :
    (selectStep models n st t).1 = Tier.ultra ∨
      eligibilityThreshold (selectStep models n st t).1 ≤ n := by
  unfold selectStep
  split
  · rename_i hc
    simp only [Bool.and_eq_true] at hc
    exact Or.inr (meetsThreshold_le n t hc.1.1).2
  · exact h

theorem foldl_selectStep_inv (models : Registry) (n : Nat) (ts : List Tier)
    (st : Tier × JsNumber) (h : st.1 = Tier.ultra ∨ eligibilityThreshold st.1 ≤ n) :
    (ts.foldl (selectStep models n) st).1 = Tier.ultra ∨
      eligibilityThreshold (ts.foldl (selectStep models n) st).1 ≤ n := by
  induction ts generalizing st with
  | nil => exact h
  | cons t ts ih => exact ih _ (selectStep_inv models n st t h)

theorem selectBest_inv (models : Registry) (n : Nat) :
    selectBest models n = Tier.ultra ∨ eligibilityThreshold (selectBest models n) ≤ n :=
  foldl_selectStep_inv models n Tier.all _ (Or.inl rfl)

/-- C1 (as stated, refuted): with five records and the registry that
`initModels` leaves, `predict` runs inference on `ultra`, whose threshold 50
exceeds the history length 5. -/
theorem c1_ultra_below_threshold :
    5 ≤ fiveRecords.length ∧ inferenceTier loadedRegistry fiveRecords = some Tier.ultra ∧
      fiveRecords.length < eligibilityThreshold Tier.ultra := by
  decide

/-- C1 (amended): whenever `predict` runs inference on the model of a tier,
that tier is `ultra`, the initial value of `bestModelType`, or its threshold is
at most the history length. -/
theorem c1_selected_tier_threshold (models : Registry) (data : List DataRec) (t : Tier)
    (hrun : inferenceTier models data = some t) :
    t = Tier.ultra ∨ eligibilityThreshold t ≤ data.length := by
  unfold inferenceTier at hrun
  split at hrun
  · exact absurd hrun (by simp)
  · dsimp only at hrun
    split at hrun
    · have ht : selectBest models data.length = t := Option.some.inj hrun
      exact ht ▸ selectBest_inv models data.length
    · exact absurd hrun (by simp)

/-- C1 (amended), at a history of 200 records with `cnn` trained: inference
runs on `cnn`, whose threshold is 200. -/
theorem c1_selected_tier_threshold_witness :
    inferenceTier cnnTrainedRegistry (List.replicate 200 (sampleRec 3)) = some Tier.cnn ∧
      (Tier.cnn = Tier.ultra ∨
        eligibilityThreshold Tier.cnn ≤ (List.replicate 200 (sampleRec 3)).length) :=
  have h : inferenceTier cnnTrainedRegistry (List.replicate 200 (sampleRec 3)) = some Tier.cnn := by
    rw [inferenceTier, List.length_replicate]
    decide
  ⟨h, c1_selected_tier_threshold _ _ _ h⟩

/-! ## Windowing (C2) -/

theorem prepareLoop_eq (data : List DataRec) (fuel : Nat) :
    ∀ (i : Nat) (sequences : List (List JsInt)) (labels : List JsInt),
      data.length - i ≤ fuel →
      prepareLoop data fuel i sequences labels =
        (sequences ++ (List.range' i (data.length - i)).map (windowAt data),
         labels ++ (List.range' i (data.length - i)).map (labelAt data)) := by
  induction fuel with
  | zero =>
    intro i sequences labels h
    have h0 : data.length - i = 0 := by omega
    simp [prepareLoop, h0]
  | succ fuel ih =>
    intro i sequences labels h
    unfold prepareLoop
    by_cases hi : i < data.length
    · have hk : data.length - i = (data.length - (i + 1)) + 1 := by omega
      rw [if_pos hi, ih (i + 1) _ _ (by omega), hk, List.range'_succ]
      simp [windowAt, labelAt, List.append_assoc]
    · have h0 : data.length - i = 0 := by omega
      simp [hi, h0]

theorem windowAt_length (data : List DataRec) (i : Nat) (h1 : TIMESTEPS ≤ i)
    (h2 : i < data.length) : (windowAt data i).length = TIMESTEPS := by
  simp only [windowAt, slice, List.length_map, List.length_take, List.length_drop]
  omega

/-- C2: the windows and labels built by `prepareTrainingData` are, in order,
the values of `H[i-W .. i)` and the value of `H[i]` for `i = W, ..., n-1` with
`W = TIMESTEPS = 20`; there are `n - W` of each (none when `n ≤ W`) and every
window has length `W`. -/
theorem c2_prepareTrainingData_windows (data : List DataRec) :
    TIMESTEPS = 20 ∧
    prepareTrainingData data =
      ((List.range' TIMESTEPS (data.length - TIMESTEPS)).map (windowAt data),
       (List.range' TIMESTEPS (data.length - TIMESTEPS)).map (labelAt data)) ∧
    (prepareTrainingData data).1.length = data.length - TIMESTEPS ∧
    (prepareTrainingData data).2.length = data.length - TIMESTEPS ∧
    (∀ w ∈ (prepareTrainingData data).1, w.length = TIMESTEPS) ∧
    (∀ i, TIMESTEPS ≤ i → i < data.length →
      windowAt data i = ((data.drop (i - TIMESTEPS)).take TIMESTEPS).map DataRec.value ∧
      some (labelAt data i) = (data.get? i).map DataRec.value) := by
  have heq : prepareTrainingData data =
      ((List.range' TIMESTEPS (data.length - TIMESTEPS)).map (windowAt data),
       (List.range' TIMESTEPS (data.length - TIMESTEPS)).map (labelAt data)) := by
    unfold prepareTrainingData
    rw [prepareLoop_eq data data.length TIMESTEPS [] [] (by omega)]
    simp
  refine ⟨rfl, heq, ?_, ?_, ?_, ?_⟩
  · rw [heq]; simp
  · rw [heq]; simp
  · rw [heq]
    intro w hw
    simp only [List.mem_map, List.mem_range'_1] at hw
    obtain ⟨i, ⟨h1, h2⟩, rfl⟩ := hw
    exact windowAt_length data i h1 (by omega)
  · intro i h1 h2
    constructor
    · have : i - (i - TIMESTEPS) = TIMESTEPS := by omega
      simp [windowAt, slice, this]
    · simp [labelAt, List.getD, List.get?_eq_getElem?, List.getElem?_eq_getElem h2]

/-! ## The issue number of a forecast (C3) -/

theorem fallbackPrediction_issueNumber (first : DataRec) (rest : List DataRec) (r : ℚ) :
    (fallbackPrediction (first :: rest) r).map (fun f => f.issueNumber) =
      some (incrementIssueNumber first.issueNumber) := by
  simp [fallbackPrediction]

theorem predict_issueNumber (models : Registry) (data : List DataRec) (r1 r2 : ℚ) :
    (predict models data r1 r2).map (fun f => f.issueNumber) = some (forecastIssue data) := by
  unfold predict
  by_cases hlen : data.length < 5
  · rw [if_pos hlen]
    cases data with
    | nil => simp [forecastIssue]
    | cons first rest =>
      have hlen2 : rest.length + 1 < 5 := by simpa using hlen
      simp [forecastIssue, hlen2]
  · rw [if_neg hlen]
    cases data with
    | nil => simp at hlen
    | cons first rest =>
      have hfb := fallbackPrediction_issueNumber first rest r1
      have hfi : forecastIssue (first :: rest) = incrementIssueNumber first.issueNumber := by
        simp only [forecastIssue, if_neg hlen]
      rw [hfi]
      dsimp only
      cases (models (selectBest models (first :: rest).length)).model with
      | none => exact hfb
      | some model =>
        dsimp only
        cases model.predict (inputSequence (first :: rest)) with
        | none => exact hfb
        | some row => rfl

/-- C3 (the code at the failing input): for the five records with issues
`20231115001` to `20231115005`, oldest first, `predict` returns issue
`20231115002`, the increment of the oldest issue, with a loaded model and on
the fallback path alike; the increment of the most recent issue is
`20231115006`. -/
theorem c3_forecast_issue_from_oldest :
    fiveRecords.map (fun d => d.issueNumber) =
      ["20231115001", "20231115002", "20231115003", "20231115004", "20231115005"] ∧
    (predict loadedRegistry fiveRecords 0 0).map (fun f => f.issueNumber) = some "20231115002" ∧
    (predict Registry.initial fiveRecords 0 0).map (fun f => f.issueNumber) = some "20231115002" ∧
    (fiveRecords.getLast?.map (fun d => incrementIssueNumber d.issueNumber)) =
      some "20231115006" := by
  refine ⟨by decide, ?_, ?_, by decide⟩
  · rw [predict_issueNumber]; decide
  · rw [predict_issueNumber]; decide

/-! ## The repeating branch of the overlay (C4) -/

theorem strictEq_int_iff (n : JsInt) (a : Int) :
    n.strictEq (JsInt.int a) = true ↔ n = JsInt.int a := by
  cases n <;> simp [JsInt.strictEq]

theorem filter_strictEq_length (l : List JsInt) (a : Int) :
    (l.filter (fun n => n.strictEq (JsInt.int a))).length = l.count (JsInt.int a) := by
  induction l with
  | nil => rfl
  | cons x xs ih =>
    by_cases hx : x = JsInt.int a
    · subst hx
      have h1 : (JsInt.int a).strictEq (JsInt.int a) = true := (strictEq_int_iff _ a).2 rfl
      simp [List.filter_cons, h1, ih]
    · have h1 : x.strictEq (JsInt.int a) = false := by
        cases hb : x.strictEq (JsInt.int a) with
        | false => rfl
        | true => exact absurd ((strictEq_int_iff x a).1 hb) hx
      have h2 : (x == JsInt.int a) = false := by simpa using hx
      simp [List.filter_cons, h1, List.count_cons, h2, ih]

/-- C4: when the value at index 0 of the examined values is an integer `a` that
occurs at least 3 times among them, `applyPatternRecognition` returns
prediction `(a + 1) % 10` and confidence `Math.min(0.95, confidence + 0.15)`,
whatever the base prediction and confidence and whatever the other tests
would say; for `a ≥ 0` the remainder is the usual `mod 10`, and for a finite
base confidence `c` the confidence is `min(0.95, c + 0.15)`. -/
theorem c4_repeating_branch_first (data : List DataRec) (prediction : JsInt)
    (confidence : JsNumber) (a : Int)
    (hhead : ((data.take 10).map DataRec.value).head? = some (JsInt.int a))
    (hcount : 3 ≤ ((data.take 10).map DataRec.value).count (JsInt.int a)) :
    applyPatternRecognition data prediction confidence =
      { prediction := JsInt.int (Int.tmod (a + 1) 10)
        confidence := JsNumber.minConst (95 / 100) (confidence.addConst (15 / 100)) } ∧
    (0 ≤ a → Int.tmod (a + 1) 10 = (a + 1) % 10) ∧
    (∀ c : ℚ, confidence = JsNumber.fin c →
      (applyPatternRecognition data prediction confidence).confidence =
        JsNumber.fin (min (95 / 100) (c + 15 / 100))) := by
  have hlast : ((data.take 10).map DataRec.value).getD 0 JsInt.nan = JsInt.int a := by
    cases hl : (data.take 10).map DataRec.value with
    | nil => rw [hl] at hhead; simp at hhead
    | cons x xs => rw [hl] at hhead; simpa using hhead
  have hmain : applyPatternRecognition data prediction confidence =
      { prediction := JsInt.int (Int.tmod (a + 1) 10)
        confidence := JsNumber.minConst (95 / 100) (confidence.addConst (15 / 100)) } := by
    unfold applyPatternRecognition
    simp only [hlast, filter_strictEq_length]
    rw [if_pos hcount]
    rfl
  refine ⟨hmain, ?_, ?_⟩
  · intro ha
    exact Int.tmod_eq_emod (by omega) (by decide)
  · intro c hc
    rw [hmain, hc]
    rfl

/-- C4 at the values 3,3,3,1,2,4,5,6,7,8 with base prediction 7 and base
confidence 1/2: the prediction is 4. -/
theorem c4_repeating_branch_first_witness :
    ((repeatingRecords.take 10).map DataRec.value).head? = some (JsInt.int 3) ∧
    3 ≤ ((repeatingRecords.take 10).map DataRec.value).count (JsInt.int 3) ∧
    (applyPatternRecognition repeatingRecords (JsInt.int 7) (JsNumber.fin (1 / 2))).prediction =
      JsInt.int 4 :=
  ⟨by decide, by decide,
    (congrArg Adjusted.prediction
      (c4_repeating_branch_first repeatingRecords (JsInt.int 7) (JsNumber.fin (1 / 2)) 3
        (by decide) (by decide)).1).trans (by decide)⟩

/-! ## The fallback candidates (C5) -/

theorem bump_length (fs : List Nat) (k : Nat) : (bump fs k).length = fs.length := by
  induction fs generalizing k with
  | nil => rfl
  | cons f fs ih => cases k <;> simp [bump, ih]

theorem bump_getD (fs : List Nat) (k d : Nat) :
    (bump fs k).getD d 0 = fs.getD d 0 + (if k = d ∧ d < fs.length then 1 else 0) := by
  induction fs generalizing k d with
  | nil => simp [bump]
  | cons f fs ih =>
    cases k with
    | zero =>
      cases d with
      | zero => simp [bump]
      | succ d => simp [bump]
    | succ k =>
      cases d with
      | zero => simp [bump]
      | succ d =>
        have h := ih k d
        simp only [bump, List.getD_cons_succ, List.length_cons, Nat.add_right_cancel_iff,
          Nat.add_lt_add_iff_right]
        exact h

theorem countStep_length (fs : List Nat) (x : JsInt) : (countStep fs x).length = fs.length := by
  unfold countStep
  split
  · split
    · exact bump_length _ _
    · rfl
  · rfl

theorem countStep_getD (fs : List Nat) (x : JsInt) (d : Nat) (hlen : fs.length = 10)
    (hd : d < 10) :
    (countStep fs x).getD d 0 = fs.getD d 0 + (if x = JsInt.int (d : Int) then 1 else 0) := by
  unfold countStep
  cases x with
  | nan => simp
  | int v =>
    dsimp only
    by_cases hv : 0 ≤ v ∧ v ≤ 9
    · rw [if_pos hv, bump_getD]
      have : (v.toNat = d ∧ d < fs.length) ↔ JsInt.int v = JsInt.int (d : Int) := by
        constructor
        · rintro ⟨h, -⟩
          congr 1
          omega
        · intro h
          have h2 : v = (d : Int) := JsInt.int.inj h
          exact ⟨by omega, by omega⟩
      simp only [this]
    · rw [if_neg hv]
      have : JsInt.int v ≠ JsInt.int (d : Int) := by
        intro h
        have h2 : v = (d : Int) := JsInt.int.inj h
        omega
      simp [this]

theorem foldl_countStep_length (l : List JsInt) (fs : List Nat) :
    (l.foldl countStep fs).length = fs.length := by
  induction l generalizing fs with
  | nil => rfl
  | cons x xs ih => simp [List.foldl_cons, ih, countStep_length]

theorem foldl_countStep_getD (l : List JsInt) (fs : List Nat) (d : Nat) (hlen : fs.length = 10)
    (hd : d < 10) :
    (l.foldl countStep fs).getD d 0 = fs.getD d 0 + l.count (JsInt.int (d : Int)) := by
  induction l generalizing fs with
  | nil => simp
  | cons x xs ih =>
    rw [List.foldl_cons, ih _ (by rw [countStep_length, hlen]), countStep_getD fs x d hlen hd,
      List.count_cons]
    by_cases hx : x = JsInt.int (d : Int)
    · simp [hx]; omega
    · have : (x == JsInt.int (d : Int)) = false := by simpa using hx
      simp [hx, this]

theorem candidateStep_inv (freqs : List Nat) (k : Nat) (st : Option Nat × List Nat)
    (h : CandInv freqs k st) : CandInv freqs (k + 1) (candidateStep freqs st k) := by
  right
  refine ⟨Nat.succ_pos k, ?_⟩
  rcases h with ⟨hk, hst⟩ | ⟨hk, m, hst, hmin, i0, hi0, hfi0⟩
  · subst hk; subst hst
    refine ⟨freqAt freqs 0, ?_, ?_, 0, by omega, rfl⟩
    · simp [candidateStep, List.range_succ]
    · intro i hi
      have : i = 0 := by omega
      subst this; exact le_refl _
  · subst hst
    unfold candidateStep
    dsimp only
    by_cases h1 : freqAt freqs k < m
    · rw [if_pos h1]
      refine ⟨freqAt freqs k, ?_, ?_, k, by omega, rfl⟩
      · rw [List.range_succ, List.filter_append]
        have hnil : (List.range k).filter (fun i => decide (freqAt freqs i = freqAt freqs k)) = [] := by
          rw [List.filter_eq_nil_iff]
          intro i hi
          have := hmin i (List.mem_range.1 hi)
          simp only [decide_eq_true_eq]
          omega
        rw [hnil]
        simp
      · intro i hi
        rcases Nat.lt_succ_iff_lt_or_eq.1 hi with h | h
        · have := hmin i h; omega
        · subst h; exact le_refl _
    · rw [if_neg h1]
      by_cases h2 : freqAt freqs k = m
      · rw [if_pos h2]
        refine ⟨m, ?_, ?_, i0, by omega, hfi0⟩
        · rw [List.range_succ, List.filter_append]
          simp [h2]
        · intro i hi
          rcases Nat.lt_succ_iff_lt_or_eq.1 hi with h | h
          · exact hmin i h
          · subst h; omega
      · rw [if_neg h2]
        refine ⟨m, ?_, ?_, i0, by omega, hfi0⟩
        · rw [List.range_succ, List.filter_append]
          simp [h2]
        · intro i hi
          rcases Nat.lt_succ_iff_lt_or_eq.1 hi with h | h
          · exact hmin i h
          · subst h; omega

theorem foldl_candidateStep_inv (freqs : List Nat) (k : Nat) :
    CandInv freqs k ((List.range k).foldl (candidateStep freqs) (none, [])) := by
  induction k with
  | zero => left; exact ⟨rfl, rfl⟩
  | succ k ih =>
    rw [List.range_succ, List.foldl_append]
    exact candidateStep_inv freqs k _ ih

theorem fallbackCandidates_spec (freqs : List Nat) :
    ∃ m, fallbackCandidates freqs = (List.range 10).filter (fun i => decide (freqAt freqs i = m)) ∧
      (∀ i, i < 10 → m ≤ freqAt freqs i) ∧ ∃ i, i < 10 ∧ freqAt freqs i = m := by
  rcases foldl_candidateStep_inv freqs 10 with ⟨hk, -⟩ | ⟨-, m, hst, hmin, hex⟩
  · exact absurd hk (by decide)
  · exact ⟨m, by rw [fallbackCandidates, hst], hmin, hex⟩

theorem mem_fallbackCandidates (freqs : List Nat) (d : Nat) :
    d ∈ fallbackCandidates freqs ↔
      d < 10 ∧ ∀ e, e < 10 → freqAt freqs d ≤ freqAt freqs e := by
  obtain ⟨m, heq, hmin, i0, hi0, hfi0⟩ := fallbackCandidates_spec freqs
  rw [heq, List.mem_filter, List.mem_range, decide_eq_true_eq]
  constructor
  · rintro ⟨hd, hm⟩
    exact ⟨hd, fun e he => hm ▸ hmin e he⟩
  · rintro ⟨hd, hall⟩
    exact ⟨hd, le_antisymm (hfi0 ▸ hall i0 hi0) (hmin d hd)⟩

theorem fallbackCandidates_ne_nil (freqs : List Nat) : fallbackCandidates freqs ≠ [] := by
  obtain ⟨m, heq, hmin, i0, hi0, hfi0⟩ := fallbackCandidates_spec freqs
  intro h
  have hmem : i0 ∈ fallbackCandidates freqs := by
    rw [heq, List.mem_filter, List.mem_range, decide_eq_true_eq]
    exact ⟨hi0, hfi0⟩
  rw [h] at hmem
  exact absurd hmem (List.not_mem_nil _)

theorem pickCandidate_mem (candidates : List Nat) (r : ℚ) (hne : candidates ≠ [])
    (h0 : 0 ≤ r) (h1 : r < 1) :
    ∃ d, pickCandidate candidates r = some d ∧ d ∈ candidates := by
  have hlen : 0 < candidates.length := List.length_pos.2 hne
  have hq : (0 : ℚ) < (candidates.length : ℚ) := by exact_mod_cast hlen
  have hidx0 : 0 ≤ ⌊r * (candidates.length : ℚ)⌋ := Int.floor_nonneg.2 (mul_nonneg h0 hq.le)
  have hidx1 : ⌊r * (candidates.length : ℚ)⌋ < (candidates.length : Int) := by
    rw [Int.floor_lt]
    have : r * (candidates.length : ℚ) < 1 * (candidates.length : ℚ) :=
      mul_lt_mul_of_pos_right h1 hq
    simpa using this
  have hlt : ⌊r * (candidates.length : ℚ)⌋.toNat < candidates.length := by omega
  refine ⟨candidates.get ⟨_, hlt⟩, ?_, List.get_mem _ _ _⟩
  unfold pickCandidate
  dsimp only
  rw [if_pos hidx0]
  exact List.get?_eq_get hlt

theorem digitFrequencies_count (data : List DataRec) (d : Nat) (hd : d < 10) :
    freqAt (digitFrequencies data) d =
      ((data.take 15).map DataRec.value).count (JsInt.int (d : Int)) := by
  unfold freqAt digitFrequencies
  rw [foldl_countStep_getD _ _ d (by simp) hd]
  have h0 : (List.replicate 10 0).getD d 0 = 0 := by
    interval_cases d <;> rfl
  rw [h0, Nat.zero_add]

/-- C5: for every history and every draw `r` of `Math.random()` in `[0, 1)`,
the array `frequencies` counts the occurrences of each digit among the at most
15 considered values; `candidates` is exactly the digits of minimal count and
is not empty; on a non-empty history `fallbackPrediction` returns, and its
prediction is one of the candidates; for the frequencies
`[2,2,2,2,2,1,1,1,1,1]` the candidates are 5, 6, 7, 8, 9. -/
theorem c5_fallback_candidates (data : List DataRec) (r : ℚ) (h0 : 0 ≤ r) (h1 : r < 1) :
    ((data.take 15).map DataRec.value).length ≤ 15 ∧
    (∀ d : Nat, d < 10 → freqAt (digitFrequencies data) d =
      ((data.take 15).map DataRec.value).count (JsInt.int (d : Int))) ∧
    (∀ d : Nat, d ∈ fallbackCandidates (digitFrequencies data) ↔
      d < 10 ∧ ∀ e : Nat, e < 10 →
        ((data.take 15).map DataRec.value).count (JsInt.int (d : Int)) ≤
          ((data.take 15).map DataRec.value).count (JsInt.int (e : Int))) ∧
    fallbackCandidates (digitFrequencies data) ≠ [] ∧
    (data ≠ [] → ∃ (f : Forecast) (d : Nat), fallbackPrediction data r = some f ∧
      f.prediction = JsInt.int (d : Int) ∧ d ∈ fallbackCandidates (digitFrequencies data)) ∧
    fallbackCandidates [2, 2, 2, 2, 2, 1, 1, 1, 1, 1] = [5, 6, 7, 8, 9] := by
  refine ⟨?_, fun d hd => digitFrequencies_count data d hd, ?_,
    fallbackCandidates_ne_nil _, ?_, by decide⟩
  · simp only [List.length_map, List.length_take]
    omega
  · intro d
    rw [mem_fallbackCandidates]
    constructor
    · rintro ⟨hd, hall⟩
      refine ⟨hd, fun e he => ?_⟩
      rw [← digitFrequencies_count data d hd, ← digitFrequencies_count data e he]
      exact hall e he
    · rintro ⟨hd, hall⟩
      refine ⟨hd, fun e he => ?_⟩
      rw [digitFrequencies_count data d hd, digitFrequencies_count data e he]
      exact hall e he
  · intro hne
    obtain ⟨d, hpick, hmem⟩ :=
      pickCandidate_mem _ r (fallbackCandidates_ne_nil (digitFrequencies data)) h0 h1
    cases data with
    | nil => exact absurd rfl hne
    | cons first rest =>
      refine ⟨_, d, rfl, ?_, hmem⟩
      simp only [hpick]

/-- C5 at fifteen values with frequencies `[2,2,2,2,2,1,1,1,1,1]` and the draw
1/2: the candidates are 5, 6, 7, 8, 9. -/
theorem c5_fallback_candidates_witness :
    (0 : ℚ) ≤ 1 / 2 ∧ (1 / 2 : ℚ) < 1 ∧
    digitFrequencies fifteenRecords = [2, 2, 2, 2, 2, 1, 1, 1, 1, 1] ∧
    fallbackCandidates (digitFrequencies fifteenRecords) = [5, 6, 7, 8, 9] ∧
    (fifteenRecords ≠ [] → ∃ (f : Forecast) (d : Nat), fallbackPrediction fifteenRecords (1 / 2) = some f ∧
      f.prediction = JsInt.int (d : Int) ∧
      d ∈ fallbackCandidates (digitFrequencies fifteenRecords)) :=
  ⟨by norm_num, by norm_num, by decide, by decide,
    (c5_fallback_candidates fifteenRecords (1 / 2) (by norm_num) (by norm_num)).2.2.2.2.1⟩

/-! ## The fetch/predict task is idempotent (C6) -/

theorem findOneData_append_isSome (store extra : List DataRec) (x : String)
    (h : (findOneData store x).isSome) : (findOneData (store ++ extra) x).isSome := by
  unfold findOneData at *
  rw [List.find?_isSome] at *
  obtain ⟨d, hd, hp⟩ := h
  exact ⟨d, List.mem_append_left _ hd, hp⟩

theorem saveLoop_keeps (clock : Nat → Nat) (items : List NewItem) :
    ∀ (k : Nat) (store : List DataRec) (x : String),
      (findOneData store x).isSome → (findOneData (saveLoop clock items k store) x).isSome := by
  induction items with
  | nil => intro k store x h; exact h
  | cons item rest ih =>
    intro k store x h
    unfold saveLoop
    cases hf : findOneData store item.issueNumber with
    | some d => exact ih _ _ _ h
    | none => exact ih _ _ _ (findOneData_append_isSome _ _ _ h)

theorem saveLoop_has (clock : Nat → Nat) (items : List NewItem) :
    ∀ (k : Nat) (store : List DataRec) (item : NewItem), item ∈ items →
      (findOneData (saveLoop clock items k store) item.issueNumber).isSome := by
  induction items with
  | nil => intro k store item h; exact absurd h (List.not_mem_nil _)
  | cons first rest ih =>
    intro k store item h
    rcases List.mem_cons.1 h with h | h
    · subst h
      unfold saveLoop
      cases hf : findOneData store item.issueNumber with
      | some d =>
        exact saveLoop_keeps clock rest _ _ _ (by rw [hf]; rfl)
      | none =>
        refine saveLoop_keeps clock rest _ _ _ ?_
        unfold findOneData
        rw [List.find?_isSome]
        exact ⟨_, List.mem_append_right _ (List.mem_singleton.2 rfl), by simp⟩
    · unfold saveLoop
      cases hf : findOneData store first.issueNumber with
      | some d => exact ih _ _ _ h
      | none => exact ih _ _ _ h

theorem saveLoop_noop (clock : Nat → Nat) (items : List NewItem) :
    ∀ (k : Nat) (store : List DataRec),
      (∀ item ∈ items, (findOneData store item.issueNumber).isSome) →
      saveLoop clock items k store = store := by
  induction items with
  | nil => intro k store _; rfl
  | cons first rest ih =>
    intro k store h
    unfold saveLoop
    have h1 := h first (List.mem_cons_self _ _)
    cases hf : findOneData store first.issueNumber with
    | some d => exact ih _ _ (fun item hi => h item (List.mem_cons_of_mem _ hi))
    | none => rw [hf] at h1; exact absurd h1 (by simp)

theorem saveLoop_idem (clock clock2 : Nat → Nat) (items : List NewItem) (k k2 : Nat)
    (store : List DataRec) :
    saveLoop clock2 items k2 (saveLoop clock items k store) = saveLoop clock items k store :=
  saveLoop_noop clock2 items k2 _ (fun item hi => saveLoop_has clock items k store item hi)

theorem predict_some (models : Registry) (data : List DataRec) (r1 r2 : ℚ) :
    ∃ f, predict models data r1 r2 = some f ∧ f.issueNumber = forecastIssue data := by
  have h := predict_issueNumber models data r1 r2
  cases hp : predict models data r1 r2 with
  | none => rw [hp] at h; exact absurd h (by simp)
  | some f =>
    rw [hp] at h
    exact ⟨f, rfl, Option.some.inj h⟩

theorem fetchPredictCycle_some (models : Registry) (list : List UpstreamItem)
    (clock : Nat → Nat) (r1 r2 : ℚ) (s : Stores) :
    ∃ f, f.issueNumber = cycleIssue clock list s.data ∧
      fetchPredictCycle models (some list) clock r1 r2 s =
        { s with
          data := saveLoop clock (list.map toNewItem) 0 s.data
          predictions :=
            match findOnePrediction s.predictions (cycleIssue clock list s.data) with
            | some _ => s.predictions
            | none => s.predictions ++ [toPredictionRec f (clock list.length)] } := by
  obtain ⟨f, hf, hi⟩ := predict_some models
    (findRecent 1000 (saveLoop clock (list.map toNewItem) 0 s.data)).reverse r1 r2
  refine ⟨f, hi, ?_⟩
  unfold fetchPredictCycle
  simp only [hf, cycleIssue, hi]
  cases findOnePrediction s.predictions
    (forecastIssue (findRecent 1000 (saveLoop clock (list.map toNewItem) 0 s.data)).reverse) <;> rfl

theorem findOnePrediction_append_self (store : List PredictionRec) (p : PredictionRec) :
    (findOnePrediction (store ++ [p]) p.issueNumber).isSome := by
  unfold findOnePrediction
  rw [List.find?_isSome]
  exact ⟨p, List.mem_append_right _ (List.mem_singleton.2 rfl), by simp⟩

/-- C6: running the fetch/predict task a second time on the same upstream
response leaves the stores as the first run left them, whatever the registry,
the clock and the random draws of either run; and a run keeps the issue numbers
of the `Prediction` collection free of duplicates. -/
theorem c6_fetchPredictCycle_idempotent (models models2 : Registry)
    (response : Option (List UpstreamItem)) (clock clock2 : Nat → Nat) (r1 r2 r3 r4 : ℚ)
    (s : Stores) :
    fetchPredictCycle models2 response clock2 r3 r4
        (fetchPredictCycle models response clock r1 r2 s) =
      fetchPredictCycle models response clock r1 r2 s ∧
    ((s.predictions.map (fun p => p.issueNumber)).Nodup →
      ((fetchPredictCycle models response clock r1 r2 s).predictions.map
        (fun p => p.issueNumber)).Nodup) := by
  cases response with
  | none => exact ⟨rfl, fun h => h⟩
  | some list =>
    obtain ⟨f, hfi, h1⟩ := fetchPredictCycle_some models list clock r1 r2 s
    obtain ⟨g, -, h2⟩ := fetchPredictCycle_some models2 list clock2 r3 r4
      (fetchPredictCycle models (some list) clock r1 r2 s)
    have hdata : (fetchPredictCycle models (some list) clock r1 r2 s).data =
        saveLoop clock (list.map toNewItem) 0 s.data := by rw [h1]
    have hsave : saveLoop clock2 (list.map toNewItem) 0
        (fetchPredictCycle models (some list) clock r1 r2 s).data =
        (fetchPredictCycle models (some list) clock r1 r2 s).data := by
      rw [hdata]; exact saveLoop_idem _ _ _ _ _ _
    have hissue : cycleIssue clock2 list (fetchPredictCycle models (some list) clock r1 r2 s).data =
        cycleIssue clock list s.data := by
      unfold cycleIssue
      rw [hsave, hdata]
    have hfound : (findOnePrediction (fetchPredictCycle models (some list) clock r1 r2 s).predictions
        (cycleIssue clock list s.data)).isSome := by
      rw [h1]
      dsimp only
      cases hc : findOnePrediction s.predictions (cycleIssue clock list s.data) with
      | some p => dsimp only; rw [hc]; rfl
      | none =>
        dsimp only
        have := findOnePrediction_append_self s.predictions (toPredictionRec f (clock list.length))
        have hrec : (toPredictionRec f (clock list.length)).issueNumber =
            cycleIssue clock list s.data := hfi
        rw [hrec] at this
        exact this
    constructor
    · rw [h2, hsave, hissue]
      cases hc : findOnePrediction (fetchPredictCycle models (some list) clock r1 r2 s).predictions
          (cycleIssue clock list s.data) with
      | some p => rfl
      | none => rw [hc] at hfound; exact absurd hfound (by simp)
    · intro hnd
      rw [h1]
      dsimp only
      cases hc : findOnePrediction s.predictions (cycleIssue clock list s.data) with
      | some p => exact hnd
      | none =>
        dsimp only
        rw [List.map_append, List.map_singleton]
        have hnot : cycleIssue clock list s.data ∉ s.predictions.map (fun p => p.issueNumber) := by
          intro hmem
          obtain ⟨p, hp, hpi⟩ := List.mem_map.1 hmem
          unfold findOnePrediction at hc
          rw [List.find?_eq_none] at hc
          exact hc p hp (by simpa using hpi)
        have hrec : (toPredictionRec f (clock list.length)).issueNumber =
            cycleIssue clock list s.data := hfi
        rw [hrec]
        exact List.Nodup.append hnd (List.nodup_singleton _)
          (by simpa [List.Disjoint] using hnot)

/-! ## The verification task (C7 - C10) -/

theorem saveAccepts_resolve (p : PredictionRec) (o : DataRec) :
    saveAccepts (resolve p o) = true ↔ o.value ≠ JsInt.nan := by
  unfold saveAccepts resolve DataRec.value
  cases parseInt o.number <;> simp

theorem verifyOne_settled (latestData : List DataRec) (p : PredictionRec) :
    Settled latestData (verifyOne latestData p) := by
  unfold verifyOne
  cases hr : p.result with
  | some r => exact Or.inl (by simp [hr])
  | none =>
    cases hf : findActual latestData p with
    | none => exact Or.inr hf
    | some d => exact Or.inl (by simp [resolve])

theorem verifyLoop_quiet (latestData : List DataRec) (clock : Nat → Nat)
    (preds : List PredictionRec) :
    ∀ (k : Nat) (stats : List SessionStatRec),
      Quiet latestData (verifyLoop latestData clock preds k stats).1 := by
  induction preds with
  | nil => intro k stats; exact trivial
  | cons p rest ih =>
    intro k stats
    unfold verifyLoop
    cases hr : p.result with
    | some r => exact Or.inl ⟨Or.inl (by simp [hr]), ih _ _⟩
    | none =>
      cases hf : findActual latestData p with
      | none => exact Or.inl ⟨Or.inr hf, ih _ _⟩
      | some d =>
        dsimp only
        by_cases hs : saveAccepts (resolve p d) = true
        · rw [if_pos hs]
          exact Or.inl ⟨Or.inl (by simp [resolve]), ih _ _⟩
        · rw [if_neg hs]
          exact Or.inr ⟨hr, d, hf, by simpa using hs⟩

theorem verifyLoop_noop (latestData : List DataRec) (clock : Nat → Nat)
    (preds : List PredictionRec) :
    ∀ (k : Nat) (stats : List SessionStatRec), Quiet latestData preds →
      verifyLoop latestData clock preds k stats = (preds, stats) := by
  induction preds with
  | nil => intro k stats _; rfl
  | cons p rest ih =>
    intro k stats h
    unfold verifyLoop
    rcases h with ⟨hset, hrest⟩ | ⟨hpend, d, hf, hs⟩
    · have hr := ih (k + 1) stats hrest
      cases hres : p.result with
      | some r => simp [hr]
      | none =>
        rcases hset with h1 | h1
        · exact absurd hres h1
        · simp [h1, hr]
    · simp [hpend, hf, hs]

/-- C7: a second run of the verification task over the same history leaves
the stores as the first run left them: every forecast the first run resolved
keeps its `result`, `actualNumber` and `actualSize`, and the session statistics
are not changed again. -/
theorem c7_verificationCycle_idempotent (clock clock2 : Nat → Nat) (s : Stores) :
    (verificationCycle clock s).data = s.data ∧
    verificationCycle clock2 (verificationCycle clock s) = verificationCycle clock s := by
  refine ⟨rfl, ?_⟩
  have hquiet : Quiet (findRecent 10 s.data) (verificationCycle clock s).predictions :=
    verifyLoop_quiet (findRecent 10 s.data) clock s.predictions 0 s.stats
  have hno := verifyLoop_noop (findRecent 10 s.data) clock2
    (verificationCycle clock s).predictions 0 (verificationCycle clock s).stats hquiet
  show ({ verificationCycle clock s with
    predictions := (verifyLoop (findRecent 10 (verificationCycle clock s).data) clock2
      (verificationCycle clock s).predictions 0 (verificationCycle clock s).stats).1
    stats := (verifyLoop (findRecent 10 (verificationCycle clock s).data) clock2
      (verificationCycle clock s).predictions 0 (verificationCycle clock s).stats).2 } : Stores) = _
  have hd : (verificationCycle clock s).data = s.data := rfl
  rw [hd, hno]

/-! ### Session statistics (C8) -/

theorem countResult_ok (result : String) (now : Nat) (stat : SessionStatRec) (h : StatOk stat) :
    StatOk (countResult result now stat) := by
  unfold StatOk at *
  unfold countResult
  split <;> simp only <;> omega

theorem updateAt_forall {α : Type} (P : α → Prop) (f : α → α) (hf : ∀ x, P x → P (f x)) :
    ∀ (i : Nat) (l : List α), (∀ x ∈ l, P x) → ∀ x ∈ updateAt f i l, P x := by
  intro i l
  induction l generalizing i with
  | nil => intro _ x hx; simp [updateAt] at hx
  | cons y ys ih =>
    intro h x hx
    cases i with
    | zero =>
      simp only [updateAt, List.mem_cons] at hx
      rcases hx with hx | hx
      · subst hx; exact hf y (h y (List.mem_cons_self _ _))
      · exact h x (List.mem_cons_of_mem _ hx)
    | succ i =>
      simp only [updateAt, List.mem_cons] at hx
      rcases hx with hx | hx
      · subst hx; exact h _ (List.mem_cons_self _ _)
      · exact ih i (fun z hz => h z (List.mem_cons_of_mem _ hz)) x hx

theorem updateSessionStat_ok (result : String) (now : Nat) (stats : List SessionStatRec)
    (h : ∀ st ∈ stats, StatOk st) : ∀ st ∈ updateSessionStat result now stats, StatOk st := by
  unfold updateSessionStat
  cases latestStat stats with
  | none =>
    intro st hst
    rcases List.mem_append.1 hst with hst | hst
    · exact h st hst
    · rw [List.mem_singleton] at hst
      subst hst
      exact countResult_ok _ _ _ (by simp [StatOk])
  | some i => exact updateAt_forall StatOk _ (countResult_ok result now) i stats h

theorem verifyLoop_ok (latestData : List DataRec) (clock : Nat → Nat)
    (preds : List PredictionRec) :
    ∀ (k : Nat) (stats : List SessionStatRec), (∀ st ∈ stats, StatOk st) →
      ∀ st ∈ (verifyLoop latestData clock preds k stats).2, StatOk st := by
  induction preds with
  | nil => intro k stats h; exact h
  | cons p rest ih =>
    intro k stats h
    unfold verifyLoop
    cases hr : p.result with
    | some r => exact ih _ _ h
    | none =>
      cases hf : findActual latestData p with
      | none => exact ih _ _ h
      | some d =>
        dsimp only
        by_cases hs : saveAccepts (resolve p d) = true
        · rw [if_pos hs]
          exact ih _ _ (updateSessionStat_ok _ _ _ h)
        · rw [if_neg hs]
          exact h

/-- C8: if every stored `SessionStat` document satisfies
`total = wins + losses` (in particular if none is stored), the same holds
after a run of the verification task. -/
theorem c8_sessionStat_total (clock : Nat → Nat) (s : Stores)
    (h : ∀ st ∈ s.stats, st.total = st.wins + st.losses) :
    ∀ st ∈ (verificationCycle clock s).stats, st.total = st.wins + st.losses :=
  verifyLoop_ok (findRecent 10 s.data) clock s.predictions 0 s.stats h

/-- C8 at stores without session statistics in which one forecast is resolved:
the run creates the document with one loss out of one. -/
theorem c8_sessionStat_total_witness :
    (∀ st ∈ elevenStores.stats, st.total = st.wins + st.losses) ∧
    (verificationCycle (fun _ => 20) elevenStores).stats =
      [{ wins := 0, losses := 1, total := 1, timestamp := 20 }] ∧
    (∀ st ∈ (verificationCycle (fun _ => 20) elevenStores).stats,
      st.total = st.wins + st.losses) :=
  ⟨by decide, by decide,
    c8_sessionStat_total (fun _ => 20) elevenStores (by decide)⟩

/-! ### Resolution of a pending forecast (C9, C10) -/

theorem verifyLoop_get_cases (latestData : List DataRec) (clock : Nat → Nat)
    (preds : List PredictionRec) :
    ∀ (k : Nat) (stats : List SessionStatRec) (i : Nat) (p : PredictionRec),
      preds[i]? = some p →
      (verifyLoop latestData clock preds k stats).1[i]? = some p ∨
      ∃ o, p.result = none ∧ findActual latestData p = some o ∧ o.value ≠ JsInt.nan ∧
        (verifyLoop latestData clock preds k stats).1[i]? = some (resolve p o) := by
  induction preds with
  | nil => intro k stats i p h; simp at h
  | cons q rest ih =>
    intro k stats i p h
    unfold verifyLoop
    cases hr : q.result with
    | some r =>
      cases i with
      | zero => exact Or.inl (by simpa using h)
      | succ i => simpa using ih (k + 1) stats i p (by simpa using h)
    | none =>
      cases hf : findActual latestData q with
      | none =>
        cases i with
        | zero => exact Or.inl (by simpa using h)
        | succ i => simpa using ih (k + 1) stats i p (by simpa using h)
      | some d =>
        dsimp only
        by_cases hs : saveAccepts (resolve q d) = true
        · rw [if_pos hs]
          cases i with
          | zero =>
            have hqp : q = p := by simpa using h
            subst hqp
            exact Or.inr ⟨d, hr, hf, (saveAccepts_resolve q d).1 hs, by simp⟩
          | succ i => simpa using ih (k + 1) _ i p (by simpa using h)
        · rw [if_neg hs]
          exact Or.inl h

theorem verifyLoop_get (latestData : List DataRec) (clock : Nat → Nat)
    (preds : List PredictionRec) :
    ∀ (k : Nat) (stats : List SessionStatRec) (i : Nat) (p : PredictionRec),
      preds[i]? = some p →
      (∀ (j : Nat) (pj : PredictionRec) (oj : DataRec), j ≤ i → preds[j]? = some pj →
        pj.result = none → findActual latestData pj = some oj → oj.value ≠ JsInt.nan) →
      (verifyLoop latestData clock preds k stats).1[i]? = some (verifyOne latestData p) := by
  induction preds with
  | nil => intro k stats i p h; simp at h
  | cons q rest ih =>
    intro k stats i p h hclear
    have hrest : ∀ (i2 : Nat), i = i2 + 1 →
        ∀ (j : Nat) (pj : PredictionRec) (oj : DataRec), j ≤ i2 → rest[j]? = some pj →
          pj.result = none → findActual latestData pj = some oj → oj.value ≠ JsInt.nan := by
      intro i2 hi j pj oj hj hpj hres hfo
      exact hclear (j + 1) pj oj (by omega) (by simpa using hpj) hres hfo
    unfold verifyLoop
    cases hr : q.result with
    | some r =>
      cases i with
      | zero =>
        have hqp : q = p := by simpa using h
        subst hqp
        simp [verifyOne, hr]
      | succ i => simpa using ih (k + 1) stats i p (by simpa using h) (hrest i rfl)
    | none =>
      cases hf : findActual latestData q with
      | none =>
        cases i with
        | zero =>
          have hqp : q = p := by simpa using h
          subst hqp
          simp [verifyOne, hr, hf]
        | succ i => simpa using ih (k + 1) stats i p (by simpa using h) (hrest i rfl)
      | some d =>
        have hs : saveAccepts (resolve q d) = true :=
          (saveAccepts_resolve q d).2 (hclear 0 q d (Nat.zero_le _) (by simp) hr hf)
        dsimp only
        rw [if_pos hs]
        cases i with
        | zero =>
          have hqp : q = p := by simpa using h
          subst hqp
          simp [verifyOne, hr, hf]
        | succ i => simpa using ih (k + 1) _ i p (by simpa using h) (hrest i rfl)

theorem findActual_issue (latestData : List DataRec) (p : PredictionRec) (o : DataRec)
    (h : findActual latestData p = some o) : o ∈ latestData ∧ o.issueNumber = p.issueNumber := by
  unfold findActual at h
  have h1 := List.find?_some h
  exact ⟨List.mem_of_find?_eq_some h, by simpa using h1⟩

theorem verdict_win_iff (p : PredictionRec) (o : DataRec) :
    verdict p o = "win" ↔ ∃ v, p.numberPrediction = JsInt.int v ∧ o.value = JsInt.int v := by
  unfold verdict parseIntNum DataRec.value
  cases p.numberPrediction with
  | nan => simp [JsInt.strictEq]
  | int a =>
    cases parseInt o.number with
    | nan => simp [JsInt.strictEq]
    | int b =>
      by_cases hab : a = b
      · simp [JsInt.strictEq, hab]
      · simp [JsInt.strictEq, hab, Ne.symm hab]

theorem verdict_cases (p : PredictionRec) (o : DataRec) :
    verdict p o = "win" ∨ verdict p o = "loss" := by
  unfold verdict
  split
  · exact Or.inl rfl
  · exact Or.inr rfl

/-- C9: for a forecast that is pending before a run of the verification task:
if the run stores it with a `result`, it has been resolved against the record
`o` the lookup in the loaded history finds for its issue number, and afterwards
`actualNumber` is the value of `o`, an integer, `actualSize` is the size of
`o`, and `result` is `win` exactly when the predicted number equals the value
of `o`, and `loss` otherwise; and the run does store it with a `result` when
the lookup finds a record and the record found for it, and those found for the
pending forecasts before it, have a number that parses. -/
theorem c9_resolution_fields (clock : Nat → Nat) (s : Stores) (i : Nat) (p : PredictionRec)
    (hp : s.predictions[i]? = some p) (hpending : p.result = none) :
    (∀ q, (verificationCycle clock s).predictions[i]? = some q → q.result ≠ none →
      ∃ o, findActual (findRecent 10 s.data) p = some o ∧
        o.issueNumber = p.issueNumber ∧ o.value ≠ JsInt.nan ∧
        q.issueNumber = p.issueNumber ∧ q.numberPrediction = p.numberPrediction ∧
        q.actualNumber = some o.value ∧ q.actualSize = some o.size ∧
        (q.result = some "win" ↔
          ∃ v, p.numberPrediction = JsInt.int v ∧ o.value = JsInt.int v) ∧
        (q.result = some "win" ↔ p.numberPrediction = o.value) ∧
        (q.result ≠ some "win" → q.result = some "loss")) ∧
    (∀ o, findActual (findRecent 10 s.data) p = some o →
      (∀ (j : Nat) (pj : PredictionRec) (oj : DataRec), j ≤ i →
        s.predictions[j]? = some pj → pj.result = none →
        findActual (findRecent 10 s.data) pj = some oj → oj.value ≠ JsInt.nan) →
      ∃ q, (verificationCycle clock s).predictions[i]? = some q ∧ q.result ≠ none ∧
        q.actualNumber = some o.value ∧ q.actualSize = some o.size) := by
  constructor
  · intro q hq hres
    have hcases :=
      verifyLoop_get_cases (findRecent 10 s.data) clock s.predictions 0 s.stats i p hp
    have hq2 : (verifyLoop (findRecent 10 s.data) clock s.predictions 0 s.stats).1[i]? =
        some q := hq
    rcases hcases with h | ⟨o, -, ho, hval, h⟩
    · rw [h] at hq2
      have hqp : p = q := Option.some.inj hq2
      rw [← hqp] at hres
      exact absurd hpending hres
    · rw [h] at hq2
      have hqr : resolve p o = q := Option.some.inj hq2
      subst hqr
      refine ⟨o, ho, (findActual_issue _ p o ho).2, hval, rfl, rfl, rfl, rfl, ?_, ?_, ?_⟩
      · show some (verdict p o) = some "win" ↔ _
        rw [Option.some_inj]
        exact verdict_win_iff p o
      · show some (verdict p o) = some "win" ↔ _
        rw [Option.some_inj, verdict_win_iff]
        constructor
        · rintro ⟨v, h1, h2⟩
          rw [h1, h2]
        · intro heq
          cases hv : o.value with
          | nan => exact absurd hv hval
          | int v => exact ⟨v, by rw [heq, hv], rfl⟩
      · show some (verdict p o) ≠ some "win" → some (verdict p o) = some "loss"
        intro hne
        rcases verdict_cases p o with h1 | h1
        · exact absurd (congrArg some h1) hne
        · exact congrArg some h1
  · intro o ho hparse
    have hget :=
      verifyLoop_get (findRecent 10 s.data) clock s.predictions 0 s.stats i p hp hparse
    refine ⟨resolve p o, ?_, by simp [resolve], rfl, rfl⟩
    show (verifyLoop (findRecent 10 s.data) clock s.predictions 0 s.stats).1[i]? = _
    rw [hget]
    simp [verifyOne, hpending, ho]

/-- C9 at the pending forecast of issue `202311150011` (predicted 4) and the
record of that issue (drawn 11): it becomes a loss with actual number 11. -/
theorem c9_resolution_fields_witness :
    elevenStores.predictions[1]? = some pendingNewest ∧
    pendingNewest.result = none ∧
    findActual (findRecent 10 elevenStores.data) pendingNewest = some (sampleRec 11) ∧
    (∀ oj ∈ findRecent 10 elevenStores.data, oj.value ≠ JsInt.nan) ∧
    (resolve pendingNewest (sampleRec 11)).result = some "loss" ∧
    (resolve pendingNewest (sampleRec 11)).actualNumber = some (JsInt.int 11) ∧
    ∃ q, (verificationCycle (fun _ => 20) elevenStores).predictions[1]? = some q ∧
      q.result ≠ none ∧ q.actualNumber = some (sampleRec 11).value ∧
      q.actualSize = some (sampleRec 11).size :=
  have hall : ∀ oj ∈ findRecent 10 elevenStores.data, oj.value ≠ JsInt.nan := by decide
  have hf : findActual (findRecent 10 elevenStores.data) pendingNewest =
      some (sampleRec 11) := by decide
  ⟨rfl, rfl, hf, hall, by decide, by decide,
    (c9_resolution_fields (fun _ => 20) elevenStores 1 pendingNewest rfl rfl).2
      (sampleRec 11) hf (fun _ pj oj _ _ _ hfo => hall oj (findActual_issue _ pj oj hfo).1)⟩

/-- C10 (as stated, refuted): the forecast of issue `20231115001` is pending, a
record of that issue is stored in the history, and after a run of the
verification task the forecast is still pending: the record is the oldest of
eleven and the task loads the ten newest. And with three records of which the
second has the number `abc`, the forecast of issue `20231115003` is still
pending after a run although its record is loaded: the `save` of the forecast
before it rejects `actualNumber = NaN` and ends the run. -/
theorem c10_old_record_not_matched :
    (elevenStores.predictions[0]?).map (fun p => (p.issueNumber, p.result)) =
      some ("20231115001", none) ∧
    (findOneData elevenStores.data "20231115001").isSome = true ∧
    ((verificationCycle (fun _ => 20) elevenStores).predictions[0]?).map
      (fun p => (p.issueNumber, p.result)) = some ("20231115001", none) ∧
    (abcStores.predictions[1]?).map (fun p => (p.issueNumber, p.result)) =
      some ("20231115003", none) ∧
    (findActual (findRecent 10 abcStores.data) pendingThird).map
      (fun d => (d.issueNumber, d.value)) = some ("20231115003", JsInt.int 3) ∧
    ((verificationCycle (fun _ => 20) abcStores).predictions[1]?).map
      (fun p => (p.issueNumber, p.result)) = some ("20231115003", none) := by
  decide

/-- C10 (amended): a forecast that is pending before a run of the verification
task and whose issue number is that of one of the ten newest history records
is resolved by the run (its `result` is `win` or `loss`), provided the record
matched by it and the records matched by the pending forecasts before it all
have a number that parses. -/
theorem c10_recent_record_resolves (clock : Nat → Nat) (s : Stores) (i : Nat)
    (p : PredictionRec) (d : DataRec) (hp : s.predictions[i]? = some p)
    (hpending : p.result = none) (hd : d ∈ findRecent 10 s.data)
    (hissue : d.issueNumber = p.issueNumber)
    (hparse : ∀ (j : Nat) (pj : PredictionRec) (oj : DataRec), j ≤ i →
      s.predictions[j]? = some pj → pj.result = none →
      findActual (findRecent 10 s.data) pj = some oj → oj.value ≠ JsInt.nan) :
    ∃ q, (verificationCycle clock s).predictions[i]? = some q ∧
      q.issueNumber = p.issueNumber ∧
      (q.result = some "win" ∨ q.result = some "loss") := by
  have hsome : (findActual (findRecent 10 s.data) p).isSome := by
    unfold findActual
    rw [List.find?_isSome]
    exact ⟨d, hd, by simpa using hissue⟩
  have hget := verifyLoop_get (findRecent 10 s.data) clock s.predictions 0 s.stats i p hp hparse
  cases ho : findActual (findRecent 10 s.data) p with
  | none => rw [ho] at hsome; exact absurd hsome (by simp)
  | some o =>
    refine ⟨resolve p o, ?_, rfl, ?_⟩
    · show (verifyLoop (findRecent 10 s.data) clock s.predictions 0 s.stats).1[i]? = _
      rw [hget]
      simp [verifyOne, hpending, ho]
    · show some (verdict p o) = some "win" ∨ some (verdict p o) = some "loss"
      rcases verdict_cases p o with h | h
      · exact Or.inl (congrArg some h)
      · exact Or.inr (congrArg some h)

/-- C10 (amended) at the pending forecast of issue `202311150011`, whose record
is the newest of the history; every loaded record has a number that parses. -/
theorem c10_recent_record_resolves_witness :
    sampleRec 11 ∈ findRecent 10 elevenStores.data ∧
    (sampleRec 11).issueNumber = "202311150011" ∧
    (∀ oj ∈ findRecent 10 elevenStores.data, oj.value ≠ JsInt.nan) ∧
    ∃ q, (verificationCycle (fun _ => 20) elevenStores).predictions[1]? = some q ∧
      q.issueNumber = "202311150011" ∧
      (q.result = some "win" ∨ q.result = some "loss") :=
  have hall : ∀ oj ∈ findRecent 10 elevenStores.data, oj.value ≠ JsInt.nan := by decide
  ⟨by decide, by decide, hall,
    c10_recent_record_resolves (fun _ => 20) elevenStores 1 pendingNewest
      (sampleRec 11) rfl rfl (by decide) (by decide)
      (fun _ pj oj _ _ _ hfo => hall oj (findActual_issue _ pj oj hfo).1)⟩

/-! ## The inference input (C20) -/

theorem padLoop_eq (fuel : Nat) :
    ∀ (sequence : List JsInt), TIMESTEPS - sequence.length ≤ fuel →
      padLoop fuel sequence =
        List.replicate (TIMESTEPS - sequence.length) (JsInt.int 0) ++ sequence := by
  induction fuel with
  | zero =>
    intro sequence h
    have h0 : TIMESTEPS - sequence.length = 0 := by omega
    simp [padLoop, h0]
  | succ fuel ih =>
    intro sequence h
    unfold padLoop
    by_cases hlt : sequence.length < TIMESTEPS
    · rw [if_pos hlt, ih _ (by simp only [List.length_cons]; omega)]
      have hk : TIMESTEPS - sequence.length = (TIMESTEPS - (sequence.length + 1)) + 1 := by omega
      rw [List.length_cons, hk, List.replicate_succ']
      simp
    · have h0 : TIMESTEPS - sequence.length = 0 := by omega
      simp [hlt, h0]

/-- C20: the input row `predict` builds has length 20; it is
`20 - min(n, 20)` zeros followed by the values of the last `min(n, 20)`
records in their order; the padding loop stops within its `TIMESTEPS`
iterations, and more iterations change nothing. -/
theorem c20_inputSequence (data : List DataRec) :
    (inputSequence data).length = 20 ∧
    inputSequence data =
      List.replicate (20 - min data.length 20) (JsInt.int 0) ++
        (data.drop (data.length - min data.length 20)).map DataRec.value ∧
    (inputSequence data).take (20 - min data.length 20) =
      List.replicate (20 - min data.length 20) (JsInt.int 0) ∧
    (inputSequence data).drop (20 - min data.length 20) =
      (data.drop (data.length - min data.length 20)).map DataRec.value ∧
    ((data.drop (data.length - min data.length 20)).map DataRec.value).length =
      min data.length 20 ∧
    (∀ extra : Nat,
      padLoop (TIMESTEPS + extra) ((data.drop (data.length - TIMESTEPS)).map DataRec.value) =
        inputSequence data) := by
  have hlen : ((data.drop (data.length - TIMESTEPS)).map DataRec.value).length =
      min data.length 20 := by
    simp only [List.length_map, List.length_drop, TIMESTEPS]
    omega
  have hdrop : data.length - min data.length 20 = data.length - TIMESTEPS := by
    simp only [TIMESTEPS]; omega
  have hpad : ∀ extra : Nat,
      padLoop (TIMESTEPS + extra) ((data.drop (data.length - TIMESTEPS)).map DataRec.value) =
        List.replicate (20 - min data.length 20) (JsInt.int 0) ++
          (data.drop (data.length - TIMESTEPS)).map DataRec.value := by
    intro extra
    rw [padLoop_eq _ _ (by omega), hlen]
    rfl
  have heq : inputSequence data =
      List.replicate (20 - min data.length 20) (JsInt.int 0) ++
        (data.drop (data.length - TIMESTEPS)).map DataRec.value := hpad 0
  rw [hdrop]
  refine ⟨?_, heq, ?_, ?_, hlen, fun extra => (hpad extra).trans heq.symm⟩
  · rw [heq, List.length_append, List.length_replicate, hlen]
    omega
  · rw [heq, List.take_left']
    exact List.length_replicate _ _
  · rw [heq, List.drop_left']
    exact List.length_replicate _ _

/-! ## Training (C11, C12) -/

theorem meetsThreshold_iff (n : Nat) (t : Tier) :
    meetsThreshold n t = true ↔ t ≠ Tier.ultra ∧ eligibilityThreshold t ≤ n := by
  constructor
  · exact meetsThreshold_le n t
  · rintro ⟨hne, hle⟩
    unfold meetsThreshold
    rw [thresholdOf_table, if_neg hne]
    simpa using hle

theorem mem_tier_all (t : Tier) : t ∈ Tier.all := by
  cases t <;> decide

theorem trainModel_apply (fit : Fit) (models : Registry) (t u : Tier)
    (sequences : List (List JsInt)) (labels : List JsInt) :
    trainModel fit models t sequences labels u =
      if u = t then fitEntry fit t (models t) sequences labels else models u := by
  unfold trainModel
  cases hm : (models t).model with
  | none =>
    by_cases hu : u = t
    · subst hu
      simp [fitEntry, hm]
    · simp [hu]
  | some m => rfl

theorem foldl_trainStep (fit : Fit) (n : Nat) (sequences : List (List JsInt))
    (labels : List JsInt) (ts : List Tier) :
    ∀ (st : Registry × List Tier), ts.Nodup →
      (ts.foldl (trainStep fit n sequences labels) st).2 =
          st.2 ++ ts.filter (fun t => meetsThreshold n t) ∧
      ∀ u, (ts.foldl (trainStep fit n sequences labels) st).1 u =
        if u ∈ ts ∧ meetsThreshold n u = true then fitEntry fit u (st.1 u) sequences labels
        else st.1 u := by
  induction ts with
  | nil => intro st _; simp
  | cons t ts ih =>
    intro st hnd
    obtain ⟨hnot, hnd2⟩ := List.nodup_cons.1 hnd
    obtain ⟨h2, h1⟩ := ih (trainStep fit n sequences labels st t) hnd2
    rw [List.foldl_cons]
    refine ⟨?_, fun u => ?_⟩
    · rw [h2]
      unfold trainStep
      by_cases hm : meetsThreshold n t = true
      · simp [hm, List.filter_cons]
      · simp [hm, List.filter_cons]
    · rw [h1 u]
      unfold trainStep
      by_cases hut : u = t
      · subst hut
        by_cases hm : meetsThreshold n u = true
        · simp [hnot, hm, trainModel_apply]
        · simp [hm]
      · by_cases hm : meetsThreshold n t = true
        · simp [hm, trainModel_apply, hut]
        · simp [hm, hut]

theorem prepareTrainingData_length (data : List DataRec) :
    (prepareTrainingData data).1.length = data.length - TIMESTEPS := by
  unfold prepareTrainingData
  rw [prepareLoop_eq data data.length TIMESTEPS [] [] (by omega)]
  simp

/-- The condition under which `trainModels` reaches its loop: at least 10
records, and at least one window. -/
theorem trainModels_eq (fit : Fit) (models : Registry) (data : List DataRec) :
    (trainModels fit models data).2 =
        (if TIMESTEPS < data.length then Tier.all.filter (fun t => meetsThreshold data.length t)
         else []) ∧
    ∀ u, (trainModels fit models data).1 u =
      if TIMESTEPS < data.length ∧ meetsThreshold data.length u = true then
        fitEntry fit u (models u) (prepareTrainingData data).1 (prepareTrainingData data).2
      else models u := by
  unfold trainModels
  by_cases hw : TIMESTEPS < data.length
  · have h10 : ¬ data.length < 10 := by simp only [TIMESTEPS] at hw; omega
    have hne : (prepareTrainingData data).1.isEmpty = false := by
      cases hl : (prepareTrainingData data).1 with
      | nil =>
        have := prepareTrainingData_length data
        rw [hl] at this
        simp only [List.length_nil] at this
        omega
      | cons x xs => rfl
    rw [if_neg h10]
    simp only [trainingTensors, hne, Bool.false_eq_true, if_false, if_pos hw]
    obtain ⟨h2, h1⟩ := foldl_trainStep fit data.length (prepareTrainingData data).1
      (prepareTrainingData data).2 Tier.all (models, []) (by decide)
    refine ⟨by rw [h2]; simp, fun u => ?_⟩
    rw [h1 u]
    simp [mem_tier_all, hw]
  · rw [if_neg hw]
    by_cases h10 : data.length < 10
    · rw [if_pos h10]
      refine ⟨?_, fun u => ?_⟩ <;> simp [hw]
    · have he : (prepareTrainingData data).1.isEmpty = true := by
        have := prepareTrainingData_length data
        have h0 : (prepareTrainingData data).1.length = 0 := by omega
        rw [List.isEmpty_iff]
        exact List.length_eq_zero.1 h0
      rw [if_neg h10]
      simp only [trainingTensors, he, if_true]
      refine ⟨?_, fun u => ?_⟩ <;> simp [hw]

/-- C11 (the code at the failing input, and beyond it): `trainModels` never
calls `trainModel` for `ultra` and leaves its entry as it was, whatever the
history, because the threshold it looks up for `ultra` is `undefined`; with
fifty records, the threshold the constructor declares for `ultra`, no tier is
fitted. Every other tier is fitted exactly when its threshold is at most the
history length, and keeps its entry otherwise. -/
theorem c11_ultra_never_fitted (fit : Fit) (models : Registry) (data : List DataRec) :
    Tier.ultra ∉ (trainModels fit models data).2 ∧
    (trainModels fit models data).1 Tier.ultra = models Tier.ultra ∧
    (eligibilityThreshold Tier.ultra ≤ fiftyRecords.length ∧
      (trainModels sampleFit loadedRegistry fiftyRecords).2 = []) ∧
    (∀ t, t ≠ Tier.ultra →
      (t ∈ (trainModels fit models data).2 ↔ eligibilityThreshold t ≤ data.length) ∧
      (eligibilityThreshold t ≤ data.length →
        (trainModels fit models data).1 t =
          fitEntry fit t (models t) (prepareTrainingData data).1 (prepareTrainingData data).2) ∧
      (data.length < eligibilityThreshold t → (trainModels fit models data).1 t = models t)) := by
  obtain ⟨h2, h1⟩ := trainModels_eq fit models data
  have hu : meetsThreshold data.length Tier.ultra = false := by
    cases hm : meetsThreshold data.length Tier.ultra with
    | false => rfl
    | true => exact absurd rfl ((meetsThreshold_iff _ _).1 hm).1
  refine ⟨?_, ?_, ⟨by decide, by decide⟩, fun t hne => ?_⟩
  · rw [h2]
    split
    · intro hmem
      have := (List.mem_filter.1 hmem).2
      rw [hu] at this
      exact absurd this (by simp)
    · exact List.not_mem_nil _
  · rw [h1, hu]
    simp
  · have hlow : eligibilityThreshold t ≤ data.length → TIMESTEPS < data.length := by
      intro h
      have : 200 ≤ eligibilityThreshold t := by cases t <;> first | exact absurd rfl hne | decide
      simp only [TIMESTEPS]
      omega
    refine ⟨?_, ?_, ?_⟩
    · rw [h2]
      constructor
      · intro hmem
        split at hmem
        · exact ((meetsThreshold_iff _ _).1 (List.mem_filter.1 hmem).2).2
        · exact absurd hmem (List.not_mem_nil _)
      · intro hle
        rw [if_pos (hlow hle)]
        exact List.mem_filter.2 ⟨mem_tier_all t, (meetsThreshold_iff _ _).2 ⟨hne, hle⟩⟩
    · intro hle
      rw [h1, if_pos ⟨hlow hle, (meetsThreshold_iff _ _).2 ⟨hne, hle⟩⟩]
    · intro hlt
      rw [h1, if_neg]
      rintro ⟨-, hm⟩
      have := ((meetsThreshold_iff _ _).1 hm).2
      omega

/-- C12: when the `fit` of tier `T` throws in a training trigger, `trainModels`
still returns, the recorded loss of `T` is what it was before, the same tiers
are fitted, and every other tier gets the entry it gets with a library that
differs only in that the `fit` of `T` does not throw. -/
theorem c12_failed_fit_isolated (fit fit2 : Fit) (models : Registry) (data : List DataRec)
    (T : Tier)
    (hfail : ∀ m, (models T).model = some m →
      (fit T m (prepareTrainingData data).1 (prepareTrainingData data).2).loss = none)
    (hsame : ∀ t, t ≠ T → fit t = fit2 t) :
    ((trainModels fit models data).1 T).loss = (models T).loss ∧
    (trainModels fit models data).2 = (trainModels fit2 models data).2 ∧
    (∀ t, t ≠ T → (trainModels fit models data).1 t = (trainModels fit2 models data).1 t) ∧
    (∀ t, t ≠ T → t ∈ (trainModels fit models data).2 →
      (trainModels fit models data).1 t =
        fitEntry fit2 t (models t) (prepareTrainingData data).1 (prepareTrainingData data).2) := by
  obtain ⟨h2, h1⟩ := trainModels_eq fit models data
  obtain ⟨k2, k1⟩ := trainModels_eq fit2 models data
  have hentry : ∀ t, t ≠ T →
      fitEntry fit t (models t) (prepareTrainingData data).1 (prepareTrainingData data).2 =
        fitEntry fit2 t (models t) (prepareTrainingData data).1 (prepareTrainingData data).2 := by
    intro t ht
    unfold fitEntry
    rw [hsame t ht]
  refine ⟨?_, by rw [h2, k2], fun t ht => ?_, fun t ht hmem => ?_⟩
  · rw [h1]
    split
    · unfold fitEntry
      cases hm : (models T).model with
      | none => rfl
      | some m => simp only [hfail m hm]
    · rfl
  · rw [h1, k1, hentry t ht]
  · rw [h1, hentry t ht]
    rw [h2] at hmem
    split at hmem
    · rename_i hw
      rw [if_pos ⟨hw, (List.mem_filter.1 hmem).2⟩]
    · exact absurd hmem (List.not_mem_nil _)

/-- C12 at five hundred records with a library whose `fit` throws for `cnn`:
`cnn` keeps the loss `Infinity` and `lstm` is fitted with loss 1. -/
theorem c12_failed_fit_isolated_witness :
    (∀ m, (loadedRegistry Tier.cnn).model = some m →
      (cnnFailingFit Tier.cnn m (prepareTrainingData fiveHundredRecords).1
        (prepareTrainingData fiveHundredRecords).2).loss = none) ∧
    (∀ t, t ≠ Tier.cnn → cnnFailingFit t = sampleFit t) ∧
    ((trainModels cnnFailingFit loadedRegistry fiveHundredRecords).1 Tier.cnn).loss =
      (loadedRegistry Tier.cnn).loss ∧
    (trainModels cnnFailingFit loadedRegistry fiveHundredRecords).1 Tier.lstm =
      (trainModels sampleFit loadedRegistry fiveHundredRecords).1 Tier.lstm :=
  have h1 : ∀ m, (loadedRegistry Tier.cnn).model = some m →
      (cnnFailingFit Tier.cnn m (prepareTrainingData fiveHundredRecords).1
        (prepareTrainingData fiveHundredRecords).2).loss = none := fun _ _ => rfl
  have h2 : ∀ t, t ≠ Tier.cnn → cnnFailingFit t = sampleFit t := by
    intro t ht
    funext m s l
    simp [cnnFailingFit, sampleFit, ht]
  ⟨h1, h2,
    (c12_failed_fit_isolated cnnFailingFit sampleFit loadedRegistry fiveHundredRecords Tier.cnn
      h1 h2).1,
    (c12_failed_fit_isolated cnnFailingFit sampleFit loadedRegistry fiveHundredRecords Tier.cnn
      h1 h2).2.2.1 Tier.lstm (by decide)⟩

/-! ## Training in the fetch/predict task (C14) -/

theorem inferenceTier_length (models : Registry) (data data2 : List DataRec)
    (h : data.length = data2.length) : inferenceTier models data = inferenceTier models data2 := by
  unfold inferenceTier
  rw [h]

set_option maxRecDepth 100000 in
/-- C14 (the code at the failing input): with two hundred stored records, the
registry `initModels` leaves, and one new upstream item, the run appends the
record and stores the forecast `predict` makes with the registry as it stood;
on that registry inference runs on `ultra`, whereas after `trainModels` over
the 201 records it would run on the freshly fitted `cnn`. -/
theorem c14_cycle_does_not_train :
    (fetchPredictCycle loadedRegistry (some [newDraw]) (fun _ => 201) 0 0
      twoHundredStores).data.length = twoHundredStores.data.length + 1 ∧
    (∃ f, predict loadedRegistry (cycleHistory (fun _ => 201) [newDraw] twoHundredStores) 0 0 =
        some f ∧
      (fetchPredictCycle loadedRegistry (some [newDraw]) (fun _ => 201) 0 0
        twoHundredStores).predictions = [toPredictionRec f 201]) ∧
    inferenceTier loadedRegistry (cycleHistory (fun _ => 201) [newDraw] twoHundredStores) =
      some Tier.ultra ∧
    (trainModels sampleFit loadedRegistry
      (cycleHistory (fun _ => 201) [newDraw] twoHundredStores)).2 = [Tier.cnn] ∧
    inferenceTier
      (trainModels sampleFit loadedRegistry
        (cycleHistory (fun _ => 201) [newDraw] twoHundredStores)).1
      (cycleHistory (fun _ => 201) [newDraw] twoHundredStores) = some Tier.cnn := by
  have hsave : saveLoop (fun _ => 201) ([newDraw].map toNewItem) 0 twoHundredStores.data =
      twoHundredRecords ++ [{ issueNumber := "2023111500201", number := "7", size := "BIG"
                              timestamp := 201 }] := by
    decide
  have hlen : (cycleHistory (fun _ => 201) [newDraw] twoHundredStores).length = 201 := by
    unfold cycleHistory findRecent
    rw [hsave, List.length_reverse, List.length_take, List.length_insertionSort]
    decide
  refine ⟨?_, ?_, ?_, ?_, ?_⟩
  · show (saveLoop (fun _ => 201) ([newDraw].map toNewItem) 0 twoHundredStores.data).length = _
    rw [hsave]
    decide
  · obtain ⟨f, hf, -⟩ := predict_some loadedRegistry
      (cycleHistory (fun _ => 201) [newDraw] twoHundredStores) 0 0
    refine ⟨f, hf, ?_⟩
    unfold cycleHistory at hf
    unfold fetchPredictCycle
    simp only [hf]
    rfl
  · rw [inferenceTier_length _ _ (List.replicate 201 (sampleRec 1)) (by rw [hlen]; simp)]
    rw [inferenceTier, List.length_replicate]
    decide
  · rw [(trainModels_eq _ _ _).1, hlen]
    decide
  · rw [inferenceTier_length _ _ (List.replicate 201 (sampleRec 1)) (by rw [hlen]; simp)]
    rw [inferenceTier, List.length_replicate]
    have hreg := (trainModels_eq sampleFit loadedRegistry
      (cycleHistory (fun _ => 201) [newDraw] twoHundredStores)).2
    simp only [hlen] at hreg
    simp [selectBest, Tier.all, selectStep, hreg, meetsThreshold_iff, eligibilityThreshold,
      TIMESTEPS, fitEntry, loadedRegistry, sampleFit, JsNumber.lt]

/-! ## Selection among the eligible tiers (C13) -/

theorem jsLt_irrefl (a : JsNumber) : a.lt a = false := by
  cases a <;> simp [JsNumber.lt]

theorem jsLt_asymm (a b : JsNumber) (h : a.lt b = true) : b.lt a = false := by
  cases a <;> cases b <;> simp [JsNumber.lt] at h ⊢
  exact le_of_lt h

theorem jsLt_trans (a b c : JsNumber) (h1 : a.lt b = true) (h2 : b.lt c = true) :
    a.lt c = true := by
  cases a <;> cases b <;> cases c <;> simp [JsNumber.lt] at h1 h2 ⊢
  exact lt_trans h1 h2

theorem jsLt_of_not_lt (t u o : JsNumber) (h1 : u.lt o = true) (h2 : t.lt o = false) :
    t.lt u = false := by
  cases t <;> cases u <;> cases o <;> simp [JsNumber.lt] at h1 h2 ⊢
  exact le_of_lt (lt_of_lt_of_le h1 h2)

theorem jsLe_of_not_lt (a b : JsNumber) (ha : a ≠ JsNumber.nan) (hb : b ≠ JsNumber.nan)
    (h : b.lt a = false) : a.le b = true := by
  cases a <;> cases b <;> simp [JsNumber.lt, JsNumber.le] at h ha hb ⊢
  exact h

theorem jsLt_ne_nan (a b : JsNumber) (h : a.lt b = true) : a ≠ JsNumber.nan := by
  intro ha
  rw [ha] at h
  simp [JsNumber.lt] at h

theorem selectStep_eq (models : Registry) (n : Nat) (st : Tier × JsNumber) (t : Tier) :
    selectStep models n st t =
      if passesTest models n t = true ∧ (models t).loss.lt st.2 = true then (t, (models t).loss)
      else st := by
  unfold selectStep passesTest
  by_cases h : (meetsThreshold n t && (models t).model.isSome) = true
  · by_cases h2 : (models t).loss.lt st.2 = true
    · simp [h, h2]
    · simp [h, h2]
  · simp [h]

theorem foldl_selectStep_spec (models : Registry) (n : Nat) (ts : List Tier) :
    ∀ (b0 : Tier) (m0 : JsNumber),
      (ts.foldl (selectStep models n) (b0, m0) = (b0, m0) ∧
        ∀ t ∈ ts, passesTest models n t = true → (models t).loss.lt m0 = false) ∨
      (∃ pre post,
        ts = pre ++ (ts.foldl (selectStep models n) (b0, m0)).1 :: post ∧
        passesTest models n (ts.foldl (selectStep models n) (b0, m0)).1 = true ∧
        (ts.foldl (selectStep models n) (b0, m0)).2 =
          (models (ts.foldl (selectStep models n) (b0, m0)).1).loss ∧
        (ts.foldl (selectStep models n) (b0, m0)).2.lt m0 = true ∧
        (∀ t ∈ pre, passesTest models n t = true →
          (models t).loss.lt (ts.foldl (selectStep models n) (b0, m0)).2 = false ∧
          (models t).loss ≠ (ts.foldl (selectStep models n) (b0, m0)).2) ∧
        (∀ t ∈ post, passesTest models n t = true →
          (models t).loss.lt (ts.foldl (selectStep models n) (b0, m0)).2 = false)) := by
  induction ts with
  | nil => intro b0 m0; exact Or.inl ⟨rfl, fun t ht => absurd ht (List.not_mem_nil _)⟩
  | cons t rest ih =>
    intro b0 m0
    rw [List.foldl_cons, selectStep_eq]
    by_cases hc : passesTest models n t = true ∧ (models t).loss.lt m0 = true
    · rw [if_pos hc]
      rcases ih t (models t).loss with ⟨heq, hall⟩ | ⟨pre, post, hsplit, hpass, hloss, hlt, hpre, hpost⟩
      · right
        refine ⟨[], rest, ?_, ?_, ?_, ?_, ?_, ?_⟩
        · rw [heq]; rfl
        · rw [heq]; exact hc.1
        · rw [heq]
        · rw [heq]; exact hc.2
        · intro u hu; exact absurd hu (List.not_mem_nil _)
        · rw [heq]; exact hall
      · right
        refine ⟨t :: pre, post, ?_, hpass, hloss, jsLt_trans _ _ _ hlt hc.2, ?_, hpost⟩
        · rw [List.cons_append, ← hsplit]
        · intro u hu hup
          rcases List.mem_cons.1 hu with hu | hu
          · subst hu
            refine ⟨jsLt_asymm _ _ hlt, fun he => ?_⟩
            have hbad := hlt
            rw [← he, jsLt_irrefl] at hbad
            exact absurd hbad (by simp)
          · exact hpre u hu hup
    · rw [if_neg hc]
      have hnot : passesTest models n t = true → (models t).loss.lt m0 = false := by
        intro hp
        cases hl : (models t).loss.lt m0 with
        | false => rfl
        | true => exact absurd ⟨hp, hl⟩ hc
      rcases ih b0 m0 with ⟨heq, hall⟩ | ⟨pre, post, hsplit, hpass, hloss, hlt, hpre, hpost⟩
      · left
        refine ⟨heq, fun u hu hup => ?_⟩
        rcases List.mem_cons.1 hu with hu | hu
        · subst hu; exact hnot hup
        · exact hall u hu hup
      · right
        refine ⟨t :: pre, post, ?_, hpass, hloss, hlt, ?_, hpost⟩
        · rw [List.cons_append, ← hsplit]
        · intro u hu hup
          rcases List.mem_cons.1 hu with hu | hu
          · subst hu
            refine ⟨jsLt_of_not_lt _ _ _ hlt (hnot hup), fun he => ?_⟩
            rw [← he, hnot hup] at hlt
            exact absurd hlt (by simp)
          · exact hpre u hu hup

theorem fitEntry_isSome (fit : Fit) (t : Tier) (st : ModelState)
    (sequences : List (List JsInt)) (labels : List JsInt) :
    (fitEntry fit t st sequences labels).model.isSome = st.model.isSome := by
  unfold fitEntry
  cases hm : st.model with
  | none => simp [hm]
  | some m =>
    dsimp only
    cases (fit t m sequences labels).loss <;> rfl

theorem reachable_inv (models : Registry) (h : Reachable models) :
    (models Tier.ultra).loss = JsNumber.posInf ∧
    ∀ t, (models t).model.isSome = true → (models Tier.ultra).model.isSome = true := by
  induction h with
  | initial => exact ⟨rfl, fun t ht => absurd ht (by simp [Registry.initial])⟩
  | load models t model _ hfirst ih =>
    refine ⟨?_, fun u _ => ?_⟩
    · unfold setModel
      by_cases hu : Tier.ultra = t
      · rw [if_pos hu, ← hu]; exact ih.1
      · rw [if_neg hu]; exact ih.1
    · unfold setModel
      by_cases hu : Tier.ultra = t
      · rw [if_pos hu]; rfl
      · rw [if_neg hu]
        rcases hfirst with h1 | h1
        · exact absurd h1.symm hu
        · exact h1
  | train fit models data _ ih =>
    have heq := (trainModels_eq fit models data).2
    have hu : meetsThreshold data.length Tier.ultra = false := by
      cases hm : meetsThreshold data.length Tier.ultra with
      | false => rfl
      | true => exact absurd rfl ((meetsThreshold_iff _ _).1 hm).1
    have hultra : (trainModels fit models data).1 Tier.ultra = models Tier.ultra := by
      rw [heq, hu]; simp
    refine ⟨by rw [hultra]; exact ih.1, fun t ht => ?_⟩
    rw [hultra]
    refine ih.2 t ?_
    rw [heq] at ht
    split at ht
    · rw [fitEntry_isSome] at ht; exact ht
    · exact ht

theorem threshold_ge_fifty (t : Tier) : 50 ≤ eligibilityThreshold t := by
  cases t <;> decide

/-- C13: for every registry the code can produce and every history of length
`n` for which some tier is eligible (declared threshold at most `n`, model not
`null`), `predict` runs inference on the tier `selectBest` returns; that tier
is eligible, no eligible tier has a smaller loss (its loss is `<=` that of
every eligible tier whose loss is a number), and no eligible tier before it in
the order ultra, cnn, lstm, gru, transformer, hybrid, ensemble has the same
loss. -/
theorem c13_selection_minimal (models : Registry) (data : List DataRec)
    (hreach : Reachable models) (hne : ∃ t, eligibleBySpec models data.length t) :
    ∃ sel pre post,
      inferenceTier models data = some sel ∧ selectBest models data.length = sel ∧
      eligibleBySpec models data.length sel ∧
      (∀ t, eligibleBySpec models data.length t → (models t).loss.lt (models sel).loss = false) ∧
      (∀ t, eligibleBySpec models data.length t → (models t).loss ≠ JsNumber.nan →
        (models sel).loss.le (models t).loss = true) ∧
      Tier.all = pre ++ sel :: post ∧
      (∀ t ∈ pre, eligibleBySpec models data.length t →
        (models t).loss ≠ (models sel).loss) := by
  obtain ⟨hinf, hfirst⟩ := reachable_inv models hreach
  obtain ⟨t0, ht0, hm0⟩ := hne
  have hn50 : 50 ≤ data.length := (threshold_ge_fifty t0).trans ht0
  have hultraElig : eligibleBySpec models data.length Tier.ultra :=
    ⟨hn50, hfirst t0 hm0⟩
  have hpassIff : ∀ t, t ≠ Tier.ultra →
      (eligibleBySpec models data.length t ↔ passesTest models data.length t = true) := by
    intro t hne
    unfold eligibleBySpec passesTest
    rw [Bool.and_eq_true, meetsThreshold_iff]
    constructor
    · rintro ⟨h1, h2⟩; exact ⟨⟨hne, h1⟩, h2⟩
    · rintro ⟨⟨-, h1⟩, h2⟩; exact ⟨h1, h2⟩
  have hultraPass : passesTest models data.length Tier.ultra = false := by
    unfold passesTest
    cases hm : meetsThreshold data.length Tier.ultra with
    | false => rfl
    | true => exact absurd rfl ((meetsThreshold_iff _ _).1 hm).1
  have hinfer : ∀ sel, selectBest models data.length = sel →
      (models sel).model.isSome = true → inferenceTier models data = some sel := by
    intro sel hsel hm
    unfold inferenceTier
    rw [if_neg (by omega)]
    simp only [hsel, hm, if_true]
  have hfold := foldl_selectStep_spec models data.length Tier.all Tier.ultra JsNumber.posInf
  rcases hfold with ⟨heq, hall⟩ | ⟨pre, post, hsplit, hpass, hloss, hlt, hpre, hpost⟩
  · have hsel : selectBest models data.length = Tier.ultra := by
      unfold selectBest; rw [heq]
    have hmin : ∀ t, eligibleBySpec models data.length t →
        (models t).loss.lt (models Tier.ultra).loss = false := by
      intro t ht
      rw [hinf]
      by_cases htu : t = Tier.ultra
      · rw [htu, hinf]; exact jsLt_irrefl _
      · exact hall t (mem_tier_all t) ((hpassIff t htu).1 ht)
    refine ⟨Tier.ultra, [], Tier.all.tail, hinfer _ hsel hultraElig.2, hsel, hultraElig, hmin,
      fun t ht hnan => ?_, rfl, fun t ht => absurd ht (List.not_mem_nil _)⟩
    exact jsLe_of_not_lt _ _ (by rw [hinf]; simp) hnan (hmin t ht)
  · have hsel : selectBest models data.length =
        (Tier.all.foldl (selectStep models data.length) (Tier.ultra, JsNumber.posInf)).1 := rfl
    rw [← hsel] at hsplit hpass hloss
    rw [hloss] at hlt hpre hpost
    have hselne : selectBest models data.length ≠ Tier.ultra := by
      intro h
      rw [h, hultraPass] at hpass
      exact absurd hpass (by simp)
    have hselElig := (hpassIff _ hselne).2 hpass
    have hmin : ∀ t, eligibleBySpec models data.length t →
        (models t).loss.lt (models (selectBest models data.length)).loss = false := by
      intro t ht
      by_cases htu : t = Tier.ultra
      · rw [htu, hinf]
        cases (models (selectBest models data.length)).loss <;> rfl
      · have htp := (hpassIff t htu).1 ht
        have hmem : t ∈ pre ++ selectBest models data.length :: post := by
          rw [← hsplit]; exact mem_tier_all t
        rcases List.mem_append.1 hmem with h | h
        · exact (hpre t h htp).1
        · rcases List.mem_cons.1 h with h | h
          · rw [h]; exact jsLt_irrefl _
          · exact hpost t h htp
    refine ⟨selectBest models data.length, pre, post, hinfer _ rfl hselElig.2, rfl, hselElig,
      hmin, fun t ht hnan => ?_, hsplit, fun t ht hte => ?_⟩
    · exact jsLe_of_not_lt _ _ (jsLt_ne_nan _ _ hlt) hnan (hmin t ht)
    · by_cases htu : t = Tier.ultra
      · rw [htu, hinf]
        intro he
        rw [← he, jsLt_irrefl] at hlt
        exact absurd hlt (by simp)
      · exact (hpre t ht ((hpassIff t htu).1 hte)).2

theorem reachable_foldl_load (ts : List Tier) :
    ∀ models : Registry, Reachable models → (models Tier.ultra).model.isSome = true →
      Reachable (ts.foldl
        (fun models t => setModel models t { model := some sampleModel, loss := (models t).loss })
        models) := by
  induction ts with
  | nil => intro models h _; exact h
  | cons t rest ih =>
    intro models h hu
    rw [List.foldl_cons]
    refine ih _ (Reachable.load models t sampleModel h (Or.inr hu)) ?_
    unfold setModel
    by_cases ht : Tier.ultra = t
    · rw [if_pos ht]; rfl
    · rw [if_neg ht]; exact hu

theorem reachable_started : Reachable startedRegistry := by
  unfold startedRegistry Tier.all
  rw [List.foldl_cons]
  exact reachable_foldl_load _ _
    (Reachable.load Registry.initial Tier.ultra sampleModel Reachable.initial (Or.inl rfl)) rfl

theorem startedRegistry_apply (t : Tier) :
    startedRegistry t = { model := some sampleModel, loss := JsNumber.posInf } := by
  cases t <;> rfl

set_option maxRecDepth 100000 in
/-- C13 at the registry after `initModels` and one training run over two
hundred records, which fits `cnn`: every tier has a model, `ultra` and `cnn`
are eligible, and inference runs on `cnn`. -/
theorem c13_selection_minimal_witness :
    Reachable trainedRegistry ∧
    (∃ t, eligibleBySpec trainedRegistry twoHundredRecords.length t) ∧
    inferenceTier trainedRegistry twoHundredRecords = some Tier.cnn ∧
    ∃ sel pre post,
      inferenceTier trainedRegistry twoHundredRecords = some sel ∧
      selectBest trainedRegistry twoHundredRecords.length = sel ∧
      eligibleBySpec trainedRegistry twoHundredRecords.length sel ∧
      (∀ t, eligibleBySpec trainedRegistry twoHundredRecords.length t →
        (trainedRegistry t).loss.lt (trainedRegistry sel).loss = false) ∧
      (∀ t, eligibleBySpec trainedRegistry twoHundredRecords.length t →
        (trainedRegistry t).loss ≠ JsNumber.nan →
        (trainedRegistry sel).loss.le (trainedRegistry t).loss = true) ∧
      Tier.all = pre ++ sel :: post ∧
      (∀ t ∈ pre, eligibleBySpec trainedRegistry twoHundredRecords.length t →
        (trainedRegistry t).loss ≠ (trainedRegistry sel).loss) :=
  have hlen : twoHundredRecords.length = 200 := by decide
  have hreg := (trainModels_eq sampleFit startedRegistry twoHundredRecords).2
  have hreach : Reachable trainedRegistry :=
    Reachable.train sampleFit startedRegistry twoHundredRecords reachable_started
  have helig : ∃ t, eligibleBySpec trainedRegistry twoHundredRecords.length t := by
    refine ⟨Tier.ultra, by rw [hlen]; decide, ?_⟩
    show ((trainModels sampleFit startedRegistry twoHundredRecords).1 Tier.ultra).model.isSome =
      true
    rw [hreg]
    split
    · rw [fitEntry_isSome, startedRegistry_apply]; rfl
    · rw [startedRegistry_apply]; rfl
  have hcnn : inferenceTier trainedRegistry twoHundredRecords = some Tier.cnn := by
    rw [inferenceTier_length _ _ (List.replicate 200 (sampleRec 1)) (by rw [hlen]; simp)]
    rw [inferenceTier, List.length_replicate]
    simp only [hlen] at hreg
    simp [selectBest, Tier.all, selectStep, trainedRegistry, hreg, meetsThreshold_iff,
      eligibilityThreshold, TIMESTEPS, fitEntry, startedRegistry_apply, sampleFit, JsNumber.lt]
  ⟨hreach, helig, hcnn, c13_selection_minimal trainedRegistry twoHundredRecords hreach helig⟩

/-! ## `incrementIssueNumber` (C15) -/

theorem toDigitsCore_step (b fuel n : Nat) (ds : List Char) (h : 0 < fuel) :
    Nat.toDigitsCore b fuel n ds =
      if n / b = 0 then Nat.digitChar (n % b) :: ds
      else Nat.toDigitsCore b (fuel - 1) (n / b) (Nat.digitChar (n % b) :: ds) := by
  cases fuel with
  | zero => omega
  | succ f => simp [Nat.toDigitsCore]

theorem padStart4_repr (w : Nat) (h : w < 10000) :
    padStart4 (Nat.repr w).data = fourDigits w := by
  have hrepr : (Nat.repr w).data = Nat.toDigitsCore 10 (w + 1) w [] := rfl
  rw [hrepr, toDigitsCore_step _ _ _ _ (by omega)]
  have z : Nat.digitChar 0 = '0' := rfl
  by_cases h1 : w / 10 = 0
  · rw [if_pos h1]
    have a : w / 1000 % 10 = 0 := by omega
    have b : w / 100 % 10 = 0 := by omega
    have c : w / 10 % 10 = 0 := by omega
    simp [padStart4, fourDigits, a, b, c, z]
  · rw [if_neg h1, toDigitsCore_step _ _ _ _ (by omega)]
    by_cases h2 : w / 10 / 10 = 0
    · rw [if_pos h2]
      have a : w / 1000 % 10 = 0 := by omega
      have b : w / 100 % 10 = 0 := by omega
      simp [padStart4, fourDigits, a, b, z]
    · rw [if_neg h2, toDigitsCore_step _ _ _ _ (by omega)]
      by_cases h3 : w / 10 / 10 / 10 = 0
      · rw [if_pos h3]
        have a : w / 1000 % 10 = 0 := by omega
        have b : w / 10 / 10 % 10 = w / 100 % 10 := by omega
        simp [padStart4, fourDigits, a, b, z]
      · rw [if_neg h3, toDigitsCore_step _ _ _ _ (by omega)]
        have h4 : w / 10 / 10 / 10 / 10 = 0 := by omega
        rw [if_pos h4]
        have a : w / 10 / 10 / 10 % 10 = w / 1000 % 10 := by omega
        have b : w / 10 / 10 % 10 = w / 100 % 10 := by omega
        simp [padStart4, fourDigits, a, b]

theorem digit_not_whiteSpace (c : Char) (h : isDecimalDigit c) : isJsWhiteSpace c = false := by
  unfold isDecimalDigit at h
  unfold isJsWhiteSpace
  simp only [Bool.or_eq_false_iff, Bool.and_eq_false_iff, decide_eq_false_iff_not]
  omega

theorem digitValue_digit (c : Char) (h : isDecimalDigit c) :
    digitValue 10 c = some (c.toNat - 48) := by
  unfold isDecimalDigit at h
  unfold digitValue
  simp [h.1, h.2]

theorem parseIntChars_four (c1 c2 c3 c4 : Char) (h1 : isDecimalDigit c1)
    (h2 : isDecimalDigit c2) (h3 : isDecimalDigit c3) (h4 : isDecimalDigit c4) :
    parseIntChars [c1, c2, c3, c4] = JsInt.int (decimalValue [c1, c2, c3, c4] : Nat) := by
  have hu : parseUnsigned [c1, c2, c3, c4] = some (decimalValue [c1, c2, c3, c4]) := by
    unfold parseUnsigned
    have hbody : (match [c1, c2, c3, c4] with
        | '0' :: 'x' :: rest => (16, rest)
        | '0' :: 'X' :: rest => (16, rest)
        | _ => ((10 : Nat), [c1, c2, c3, c4])) = (10, [c1, c2, c3, c4]) := by
      split
      · rename_i heq
        have hc : c2 = 'x' := by
          have := (List.cons.inj (List.cons.inj heq).2).1
          exact this
        rw [hc] at h2
        exact absurd h2.2 (by decide)
      · rename_i heq
        have hc : c2 = 'X' := by
          have := (List.cons.inj (List.cons.inj heq).2).1
          exact this
        rw [hc] at h2
        exact absurd h2.2 (by decide)
      · rfl
    simp only [hbody]
    simp [readDigits, digitValue_digit c1 h1, digitValue_digit c2 h2, digitValue_digit c3 h3,
      digitValue_digit c4 h4, decimalValue]
  unfold parseIntChars
  have htrim : [c1, c2, c3, c4].dropWhile isJsWhiteSpace = [c1, c2, c3, c4] := by
    simp [List.dropWhile, digit_not_whiteSpace c1 h1]
  simp only [htrim]
  split
  · rename_i heq
    have hc : c1 = '-' := (List.cons.inj heq).1
    rw [hc] at h1
    exact absurd h1.1 (by decide)
  · rename_i heq
    have hc : c1 = '+' := (List.cons.inj heq).1
    rw [hc] at h1
    exact absurd h1.1 (by decide)
  · rw [hu]

theorem decimalValue_four_lt (c1 c2 c3 c4 : Char) (h1 : isDecimalDigit c1)
    (h2 : isDecimalDigit c2) (h3 : isDecimalDigit c3) (h4 : isDecimalDigit c4) :
    decimalValue [c1, c2, c3, c4] < 10000 := by
  unfold isDecimalDigit at h1 h2 h3 h4
  simp only [decimalValue, List.foldl_cons, List.foldl_nil]
  omega

/-- C15 (as stated, refuted): the suffix `9999` is incremented to the five
characters `10000`, so the result is one character longer than the input. -/
theorem c15_suffix_9999_grows :
    (∀ c ∈ lastFour "202311159999", isDecimalDigit c) ∧
    incrementIssueNumber "202311159999" = "2023111510000" ∧
    (incrementIssueNumber "202311159999").length = ("202311159999" : String).length + 1 := by
  decide

/-- C15 (amended): for an issue number of length at least 4 whose last four
characters are decimal digits other than `9999`, `incrementIssueNumber` returns
a string of the same length with the same prefix whose last four characters are
the zero-padded decimal representation of the suffix plus one. -/
theorem c15_increment_suffix (issueNumber : String) (hlen : 4 ≤ issueNumber.length)
    (hdig : ∀ c ∈ lastFour issueNumber, isDecimalDigit c)
    (hv : decimalValue (lastFour issueNumber) ≠ 9999) :
    (incrementIssueNumber issueNumber).length = issueNumber.length ∧
    (incrementIssueNumber issueNumber).data.take (issueNumber.length - 4) =
      issueNumber.data.take (issueNumber.length - 4) ∧
    (incrementIssueNumber issueNumber).data.drop (issueNumber.length - 4) =
      fourDigits (decimalValue (lastFour issueNumber) + 1) := by
  have hlen' : 4 ≤ issueNumber.data.length := hlen
  have hne : issueNumber ≠ "" := by
    intro h
    rw [h] at hlen
    exact absurd hlen (by decide)
  have hl4 : (lastFour issueNumber).length = 4 := by
    simp only [lastFour, List.length_drop, String.length]
    omega
  obtain ⟨c1, c2, c3, c4, hcs⟩ : ∃ c1 c2 c3 c4, lastFour issueNumber = [c1, c2, c3, c4] := by
    match hl : lastFour issueNumber, hl4 with
    | [c1, c2, c3, c4], _ => exact ⟨c1, c2, c3, c4, rfl⟩
  have m1 : isDecimalDigit c1 := hdig c1 (by rw [hcs]; simp)
  have m2 : isDecimalDigit c2 := hdig c2 (by rw [hcs]; simp)
  have m3 : isDecimalDigit c3 := hdig c3 (by rw [hcs]; simp)
  have m4 : isDecimalDigit c4 := hdig c4 (by rw [hcs]; simp)
  have hlt := decimalValue_four_lt c1 c2 c3 c4 m1 m2 m3 m4
  rw [hcs] at hv ⊢
  have hinc : incrementIssueNumber issueNumber =
      String.mk (issueNumber.data.take (issueNumber.length - 4) ++
        fourDigits (decimalValue [c1, c2, c3, c4] + 1)) := by
    unfold incrementIssueNumber
    rw [if_neg hne]
    have hdrop : issueNumber.data.drop (issueNumber.data.length - 4) = [c1, c2, c3, c4] := hcs
    simp only [hdrop, parseIntChars_four c1 c2 c3 c4 m1 m2 m3 m4, jsSucc, jsToString]
    have hnonneg : ¬ ((decimalValue [c1, c2, c3, c4] : Int) + 1 < 0) := by omega
    rw [if_neg hnonneg]
    have habs : ((decimalValue [c1, c2, c3, c4] : Int) + 1).natAbs =
        decimalValue [c1, c2, c3, c4] + 1 := by omega
    rw [habs, padStart4_repr _ (by omega)]
    rfl
  have htake : (issueNumber.data.take (issueNumber.length - 4)).length =
      issueNumber.length - 4 := by
    simp only [List.length_take, String.length]
    omega
  rw [hinc]
  refine ⟨?_, ?_, ?_⟩
  · simp only [String.length, List.length_append, List.length_take, fourDigits,
      List.length_cons, List.length_nil]
    omega
  · show (issueNumber.data.take (issueNumber.length - 4) ++ _).take _ = _
    rw [List.take_left' htake]
  · show (issueNumber.data.take (issueNumber.length - 4) ++ _).drop _ = _
    rw [List.drop_left' htake]

/-- C15 (amended) at the issue number `20231115099`: the result is
`20231115100`. -/
theorem c15_increment_suffix_witness :
    4 ≤ ("20231115099" : String).length ∧
    (∀ c ∈ lastFour "20231115099", isDecimalDigit c) ∧
    decimalValue (lastFour "20231115099") ≠ 9999 ∧
    incrementIssueNumber "20231115099" = "20231115100" ∧
    (incrementIssueNumber "20231115099").data.drop (("20231115099" : String).length - 4) =
      fourDigits (decimalValue (lastFour "20231115099") + 1) :=
  ⟨by decide, by decide, by decide, by decide,
    (c15_increment_suffix "20231115099" (by decide) (by decide) (by decide)).2.2⟩

/-! ## The sequential branch of the overlay (C16) -/

/-- C16 (the code at the failing input): for the values 3,2,1,5,6,7,8,9,0,4
the hypotheses of the claim hold (3 occurs once, `3 = (2 + 1) % 10`,
`2 = (1 + 1) % 10`), yet `applyPatternRecognition` keeps the base prediction 7
and adds 0.05 to the base confidence 1/2: its test asks for
`v[1] = (v[0] + 1) % 10` and `v[2] = (v[1] + 1) % 10`. -/
theorem c16_sequential_direction :
    (descendingRecords.take 10).map DataRec.value =
      [JsInt.int 3, JsInt.int 2, JsInt.int 1, JsInt.int 5, JsInt.int 6, JsInt.int 7,
       JsInt.int 8, JsInt.int 9, JsInt.int 0, JsInt.int 4] ∧
    ((descendingRecords.take 10).map DataRec.value).count (JsInt.int 3) < 3 ∧
    JsInt.int 3 = (JsInt.int 2).succMod10 ∧ JsInt.int 2 = (JsInt.int 1).succMod10 ∧
    (applyPatternRecognition descendingRecords (JsInt.int 7) (JsNumber.fin (1 / 2))).prediction =
      JsInt.int 7 ∧
    (applyPatternRecognition descendingRecords (JsInt.int 7) (JsNumber.fin (1 / 2))).confidence =
      JsNumber.minConst (95 / 100) ((JsNumber.fin (1 / 2)).addConst (5 / 100)) ∧
    (JsInt.int 3).succMod10 = JsInt.int 4 := by
  refine ⟨by decide, by decide, by decide, by decide, by decide, ?_, by decide⟩
  have h1 : ¬ 3 ≤ (List.filter (fun n => n.strictEq
      (((descendingRecords.take 10).map DataRec.value).getD 0 JsInt.nan))
      ((descendingRecords.take 10).map DataRec.value)).length := by decide
  have h2 : everyIdx (fun n i => i == 0 || n.strictEq
      ((((descendingRecords.take 10).map DataRec.value).take 3).getD (i - 1)
        JsInt.nan).succMod10)
      (((descendingRecords.take 10).map DataRec.value).take 3) = false := by decide
  have h3 : everyIdx (fun n i => decide (i < 2) || n.strictEq
      (((descendingRecords.take 10).map DataRec.value).getD (i - 2) JsInt.nan))
      (((descendingRecords.take 10).map DataRec.value).take 4) = false := by decide
  unfold applyPatternRecognition
  simp only [h1, h2, h3, if_false, Bool.false_eq_true]

/-! ## The overlay and the base confidence (C17) -/

theorem applyPatternRecognition_confidence (data : List DataRec) (prediction : JsInt)
    (confidence : JsNumber) :
    ∃ delta : ℚ, 0 < delta ∧
      (applyPatternRecognition data prediction confidence).confidence =
        JsNumber.minConst (95 / 100) (confidence.addConst delta) := by
  unfold applyPatternRecognition
  dsimp only
  split
  · exact ⟨15 / 100, by norm_num, rfl⟩
  · split
    · exact ⟨2 / 10, by norm_num, rfl⟩
    · split
      · exact ⟨1 / 10, by norm_num, rfl⟩
      · exact ⟨5 / 100, by norm_num, rfl⟩

/-- C17 (as stated, refuted): for the base confidence 1 the overlay returns
0.95, which is below 1. -/
theorem c17_confidence_clamped_below_base :
    (0 : ℚ) ≤ 1 ∧ (1 : ℚ) ≤ 1 ∧
    (applyPatternRecognition repeatingRecords (JsInt.int 7) (JsNumber.fin 1)).confidence =
      JsNumber.fin (95 / 100) ∧
    (95 / 100 : ℚ) < 1 := by
  refine ⟨by norm_num, by norm_num, ?_, by norm_num⟩
  obtain ⟨delta, hpos, h⟩ :=
    applyPatternRecognition_confidence repeatingRecords (JsInt.int 7) (JsNumber.fin 1)
  rw [h]
  simp only [JsNumber.addConst, JsNumber.minConst]
  congr 1
  exact min_eq_left (by linarith)

/-- C17 (amended): for every base confidence `c` the overlay returns a finite
confidence `q` that is at most 0.95, is at least `c` when `c ≤ 0.95`, and is
0.95 when `c > 0.95`. -/
theorem c17_confidence_raised_up_to_cap (data : List DataRec) (prediction : JsInt) (c : ℚ) :
    ∃ q : ℚ, (applyPatternRecognition data prediction (JsNumber.fin c)).confidence =
        JsNumber.fin q ∧
      q ≤ 95 / 100 ∧ (c ≤ 95 / 100 → c ≤ q) ∧ (95 / 100 < c → q = 95 / 100) := by
  obtain ⟨delta, hpos, h⟩ := applyPatternRecognition_confidence data prediction (JsNumber.fin c)
  refine ⟨min (95 / 100) (c + delta), ?_, min_le_left _ _, fun hc => le_min hc (by linarith),
    fun hc => min_eq_left (by linarith)⟩
  rw [h]
  rfl

/-! ## The values the overlay examines (C18) -/

theorem applyPatternRecognition_take (data : List DataRec) (prediction : JsInt)
    (confidence : JsNumber) :
    applyPatternRecognition data prediction confidence =
      applyPatternRecognition (data.take 10) prediction confidence := by
  unfold applyPatternRecognition
  rw [List.take_take, Nat.min_self]

theorem predict_model_path (models : Registry) (data : List DataRec) (r1 r2 : ℚ)
    (model : TfModel) (row : List ℚ) (hlen : ¬ data.length < 5)
    (hm : (models (selectBest models data.length)).model = some model)
    (hrow : model.predict (inputSequence data) = some row) :
    (predict models data r1 r2).map (fun f => f.prediction) =
      some (applyPatternRecognition data (baseOfRow row).1 (baseOfRow row).2).prediction := by
  unfold predict
  rw [if_neg hlen]
  simp only [hm, hrow]
  cases data with
  | nil => exact absurd (by simp) hlen
  | cons first rest => rfl

theorem baseOfRow_sample :
    baseOfRow [0, 0, 0, 0, 0, 0, 0, 1, 0, 0] = (JsInt.int 7, JsNumber.fin 1) := by
  have h : ((0 : ℚ) == 1) = false := by
    rw [beq_eq_false_iff_ne]
    norm_num
  simp [baseOfRow, JsNumber.div, List.indexOf, List.findIdx, List.findIdx.go, h]

/-- C18 (the code at the failing input): for thirteen records passed oldest
first with values 1,3,5,7,9,1,3,5,7,9,4,4,4, the values the overlay examines
are those of the ten oldest records, oldest at index 0; the ten most recent,
most recent first, are 4,4,4,9,7,5,3,1,9,7. `predict` hands the array to the
overlay as it is, and the overlay keeps the base prediction 7, where the ten
most recent values give the repeating prediction 5. -/
theorem c18_overlay_reads_oldest :
    thirteenRecords.map DataRec.value =
      [JsInt.int 1, JsInt.int 3, JsInt.int 5, JsInt.int 7, JsInt.int 9, JsInt.int 1,
       JsInt.int 3, JsInt.int 5, JsInt.int 7, JsInt.int 9, JsInt.int 4, JsInt.int 4,
       JsInt.int 4] ∧
    (thirteenRecords.take 10).map DataRec.value =
      [JsInt.int 1, JsInt.int 3, JsInt.int 5, JsInt.int 7, JsInt.int 9, JsInt.int 1,
       JsInt.int 3, JsInt.int 5, JsInt.int 7, JsInt.int 9] ∧
    (thirteenRecords.reverse.take 10).map DataRec.value =
      [JsInt.int 4, JsInt.int 4, JsInt.int 4, JsInt.int 9, JsInt.int 7, JsInt.int 5,
       JsInt.int 3, JsInt.int 1, JsInt.int 9, JsInt.int 7] ∧
    (predict loadedRegistry thirteenRecords 0 0).map (fun f => f.prediction) =
      some (applyPatternRecognition thirteenRecords (JsInt.int 7) (JsNumber.fin 1)).prediction ∧
    (applyPatternRecognition thirteenRecords (JsInt.int 7) (JsNumber.fin 1)).prediction =
      JsInt.int 7 ∧
    (applyPatternRecognition thirteenRecords.reverse (JsInt.int 7) (JsNumber.fin 1)).prediction =
      JsInt.int 5 := by
  refine ⟨by decide, by decide, by decide, ?_, by decide, by decide⟩
  have h := predict_model_path loadedRegistry thirteenRecords 0 0 sampleModel
    [0, 0, 0, 0, 0, 0, 0, 1, 0, 0] (by decide) rfl rfl
  rw [baseOfRow_sample] at h
  exact h

/-! ## The save loop keeps the history free of duplicates (C19) -/

theorem findOneData_none_iff (store : List DataRec) (x : String) :
    findOneData store x = none ↔ x ∉ store.map (fun d => d.issueNumber) := by
  unfold findOneData
  rw [List.find?_eq_none]
  constructor
  · intro h hmem
    obtain ⟨d, hd, hx⟩ := List.mem_map.1 hmem
    exact h d hd (by simpa using hx)
  · intro h d hd hx
    exact h (List.mem_map.2 ⟨d, hd, by simpa using hx⟩)

theorem saveLoop_prefix_nodup (clock : Nat → Nat) (items : List NewItem) :
    ∀ (k : Nat) (store : List DataRec), (store.map (fun d => d.issueNumber)).Nodup →
      ((saveLoop clock items k store).map (fun d => d.issueNumber)).Nodup ∧
      store <+: saveLoop clock items k store := by
  induction items with
  | nil => intro k store h; exact ⟨h, List.prefix_refl _⟩
  | cons item rest ih =>
    intro k store h
    unfold saveLoop
    cases hf : findOneData store item.issueNumber with
    | some d => exact ih _ _ h
    | none =>
      have hnot := (findOneData_none_iff store item.issueNumber).1 hf
      have hnd : ((store ++ [(⟨item.issueNumber, item.number, item.size, clock k⟩ : DataRec)]).map
          (fun d : DataRec => d.issueNumber)).Nodup := by
        rw [List.map_append, List.map_singleton]
        exact List.Nodup.append h (List.nodup_singleton _)
          (by simpa [List.Disjoint] using hnot)
      obtain ⟨h1, h2⟩ := ih (k + 1) _ hnd
      exact ⟨h1, (List.prefix_append _ _).trans h2⟩

/-- C19: if no two stored history records share an issue number, then after
the save loop over any batch no two records share one, the records stored
before are the first records of the store, unchanged, and every issue number of
the batch is stored; the fetch/predict task stores exactly the result of that
loop over the fetched list, whose mapping keeps the issue number of each item,
so the same holds of the task and the issue numbers of the fetched list. -/
theorem c19_saveLoop_dedup (clock : Nat → Nat) (items : List NewItem) (store : List DataRec)
    (hnd : (store.map (fun d => d.issueNumber)).Nodup) :
    ((saveLoop clock items 0 store).map (fun d => d.issueNumber)).Nodup ∧
    store <+: saveLoop clock items 0 store ∧
    (∀ d ∈ store, d ∈ saveLoop clock items 0 store) ∧
    (∀ item ∈ items, item.issueNumber ∈ (saveLoop clock items 0 store).map
      (fun d => d.issueNumber)) ∧
    (∀ (models : Registry) (list : List UpstreamItem) (r1 r2 : ℚ) (s : Stores),
      (fetchPredictCycle models (some list) clock r1 r2 s).data =
        saveLoop clock (list.map toNewItem) 0 s.data) ∧
    (∀ u : UpstreamItem, (toNewItem u).issueNumber = u.issueNumber) ∧
    (∀ (models : Registry) (list : List UpstreamItem) (r1 r2 : ℚ) (s : Stores),
      s.data = store →
      ((fetchPredictCycle models (some list) clock r1 r2 s).data.map
        (fun d => d.issueNumber)).Nodup ∧
      store <+: (fetchPredictCycle models (some list) clock r1 r2 s).data ∧
      ∀ u ∈ list, u.issueNumber ∈
        (fetchPredictCycle models (some list) clock r1 r2 s).data.map
          (fun d => d.issueNumber)) := by
  obtain ⟨h1, h2⟩ := saveLoop_prefix_nodup clock items 0 store hnd
  have hhas : ∀ (items : List NewItem) (store : List DataRec), ∀ item ∈ items,
      item.issueNumber ∈ (saveLoop clock items 0 store).map (fun d => d.issueNumber) := by
    intro items store item hi
    have hs := saveLoop_has clock items 0 store item hi
    by_contra hnot
    rw [(findOneData_none_iff _ _).2 hnot] at hs
    exact absurd hs (by simp)
  have hdata : ∀ (models : Registry) (list : List UpstreamItem) (r1 r2 : ℚ) (s : Stores),
      (fetchPredictCycle models (some list) clock r1 r2 s).data =
        saveLoop clock (list.map toNewItem) 0 s.data := by
    intro models list r1 r2 s
    obtain ⟨f, -, h⟩ := fetchPredictCycle_some models list clock r1 r2 s
    rw [h]
  refine ⟨h1, h2, fun d hd => h2.subset hd, hhas items store, hdata, fun u => rfl, ?_⟩
  intro models list r1 r2 s hs
  rw [hdata, hs]
  obtain ⟨k1, k2⟩ := saveLoop_prefix_nodup clock (list.map toNewItem) 0 store hnd
  refine ⟨k1, k2, fun u hu => ?_⟩
  exact hhas (list.map toNewItem) store (toNewItem u) (List.mem_map.2 ⟨u, hu, rfl⟩)

/-- C19 at two stored records and a batch that repeats issue `20231115003`
and contains the stored issue `20231115002`: one record is appended, by the
loop and by the task on the fetched list alike. -/
theorem c19_saveLoop_dedup_witness :
    (twoRecords.map (fun d => d.issueNumber)).Nodup ∧
    (saveLoop (fun _ => 9) repeatingBatch 0 twoRecords).map (fun d => d.issueNumber) =
      ["20231115001", "20231115002", "20231115003"] ∧
    ((saveLoop (fun _ => 9) repeatingBatch 0 twoRecords).map (fun d => d.issueNumber)).Nodup ∧
    twoRecords <+: saveLoop (fun _ => 9) repeatingBatch 0 twoRecords ∧
    (fetchPredictCycle loadedRegistry (some fetchedBatch) (fun _ => 9) 0 0 twoStores).data.map
      (fun d => d.issueNumber) = ["20231115001", "20231115002", "20231115003"] ∧
    (∀ u ∈ fetchedBatch, u.issueNumber ∈
      (fetchPredictCycle loadedRegistry (some fetchedBatch) (fun _ => 9) 0 0 twoStores).data.map
        (fun d => d.issueNumber)) :=
  ⟨by decide, by decide,
    (c19_saveLoop_dedup (fun _ => 9) repeatingBatch twoRecords (by decide)).1,
    (c19_saveLoop_dedup (fun _ => 9) repeatingBatch twoRecords (by decide)).2.1,
    (congrArg (fun l : List DataRec => l.map (fun d => d.issueNumber))
      ((c19_saveLoop_dedup (fun _ => 9) repeatingBatch twoRecords (by decide)).2.2.2.2.1
        loadedRegistry fetchedBatch 0 0 twoStores)).trans (by decide),
    ((c19_saveLoop_dedup (fun _ => 9) repeatingBatch twoRecords (by decide)).2.2.2.2.2.2
      loadedRegistry fetchedBatch 0 0 twoStores rfl).2.2⟩

/-! ## The confidence of the fallback (C21) -/

theorem foldl_add_sum (l : List Nat) (init : Nat) :
    l.foldl (fun a b => a + b) init = init + l.sum := by
  induction l generalizing init with
  | nil => simp
  | cons x xs ih => rw [List.foldl_cons, ih, List.sum_cons]; omega

theorem bump_sum (fs : List Nat) (k : Nat) (hk : k < fs.length) :
    (bump fs k).sum = fs.sum + 1 := by
  induction fs generalizing k with
  | nil => simp at hk
  | cons f fs ih =>
    cases k with
    | zero => simp [bump]; omega
    | succ k =>
      have hk2 : k < fs.length := by simpa using hk
      simp [bump, ih k hk2]; omega

theorem countStep_sum (fs : List Nat) (x : JsInt) (hlen : fs.length = 10) :
    (countStep fs x).sum = fs.sum + (if isDigitValue x = true then 1 else 0) := by
  unfold countStep isDigitValue
  cases x with
  | nan => simp
  | int v =>
    dsimp only
    by_cases hv : 0 ≤ v ∧ v ≤ 9
    · rw [if_pos hv, bump_sum _ _ (by omega)]
      simp [hv]
    · rw [if_neg hv]
      simp [hv]

theorem foldl_countStep_sum (l : List JsInt) (fs : List Nat) (hlen : fs.length = 10) :
    (l.foldl countStep fs).sum = fs.sum + l.countP isDigitValue := by
  induction l generalizing fs with
  | nil => simp
  | cons x xs ih =>
    rw [List.foldl_cons, ih _ (by rw [countStep_length, hlen]), countStep_sum fs x hlen,
      List.countP_cons]
    omega

theorem digitFrequencies_length (data : List DataRec) : (digitFrequencies data).length = 10 := by
  unfold digitFrequencies
  rw [foldl_countStep_length]
  simp

theorem fallbackTotal_eq (data : List DataRec) :
    fallbackTotal (digitFrequencies data) =
      ((data.take 15).map DataRec.value).countP isDigitValue := by
  unfold fallbackTotal
  rw [foldl_add_sum, Nat.zero_add]
  unfold digitFrequencies
  rw [foldl_countStep_sum _ _ (by simp)]
  simp

theorem ten_min_le_total (freqs : List Nat) (hlen : freqs.length = 10) (m : Nat)
    (hmin : ∀ i, i < 10 → m ≤ freqAt freqs i) : 10 * m ≤ fallbackTotal freqs := by
  match freqs, hlen with
  | [a0, a1, a2, a3, a4, a5, a6, a7, a8, a9], _ =>
    have h0 := hmin 0 (by omega)
    have h1 := hmin 1 (by omega)
    have h2 := hmin 2 (by omega)
    have h3 := hmin 3 (by omega)
    have h4 := hmin 4 (by omega)
    have h5 := hmin 5 (by omega)
    have h6 := hmin 6 (by omega)
    have h7 := hmin 7 (by omega)
    have h8 := hmin 8 (by omega)
    have h9 := hmin 9 (by omega)
    simp only [freqAt, List.getD_cons_zero, List.getD_cons_succ] at h0 h1 h2 h3 h4 h5 h6 h7 h8 h9
    simp only [fallbackTotal, List.foldl_cons, List.foldl_nil]
    omega

theorem get?_eq_freqAt (freqs : List Nat) (hlen : freqs.length = 10) (d : Nat) (hd : d < 10) :
    freqs.get? d = some (freqAt freqs d) := by
  have hlt : d < freqs.length := by omega
  simp [freqAt, List.getD, List.get?_eq_getElem?, List.getElem?_eq_getElem hlt]

theorem fallbackConfidence_eq (freqs : List Nat) (hlen : freqs.length = 10) (d : Nat)
    (hd : d < 10) (htotal : fallbackTotal freqs ≠ 0) :
    fallbackConfidence freqs (some d) =
      JsNumber.fin (6 / 10 + 3 / 10 *
        (1 - (freqAt freqs d : ℚ) / (fallbackTotal freqs : ℚ))) := by
  have hq : ((fallbackTotal freqs : Nat) : ℚ) ≠ 0 := by exact_mod_cast htotal
  unfold fallbackConfidence
  simp only [get?_eq_freqAt freqs hlen d hd]
  show ((JsNumber.div (freqAt freqs d : ℚ) (fallbackTotal freqs : ℚ)).affine 1 (-1)).affine
    (6 / 10) (3 / 10) = _
  simp only [JsNumber.div, if_neg hq, JsNumber.affine]
  congr 1
  ring

/-- C21: when the at most 15 values `fallbackPrediction` considers include a
digit 0..9, then for every draw `r` of `Math.random()` in `[0, 1)` the selected
digit has frequency 0 or 1, and 0 when fewer than 10 considered values are
digits; the number passed to `toFixed(2)` is
`0.6 + 0.3 * (1 - selectedFrequency / total)` and lies between 0.87 and 0.90. -/
theorem c21_fallback_confidence_bounds (data : List DataRec) (r : ℚ) (h0 : 0 ≤ r) (h1 : r < 1)
    (hvalid : ∃ v ∈ (data.take 15).map DataRec.value, isDigitValue v = true) :
    ∃ (f : Forecast) (d : Nat) (q : ℚ),
      fallbackPrediction data r = some f ∧ f.prediction = JsInt.int (d : Int) ∧
      pickCandidate (fallbackCandidates (digitFrequencies data)) r = some d ∧
      fallbackTotal (digitFrequencies data) =
        ((data.take 15).map DataRec.value).countP isDigitValue ∧
      1 ≤ fallbackTotal (digitFrequencies data) ∧ fallbackTotal (digitFrequencies data) ≤ 15 ∧
      (freqAt (digitFrequencies data) d = 0 ∨ freqAt (digitFrequencies data) d = 1) ∧
      (fallbackTotal (digitFrequencies data) < 10 → freqAt (digitFrequencies data) d = 0) ∧
      f.confidence = Confidence.fixed2 (JsNumber.fin q) ∧
      q = 6 / 10 + 3 / 10 * (1 - (freqAt (digitFrequencies data) d : ℚ) /
        (fallbackTotal (digitFrequencies data) : ℚ)) ∧
      87 / 100 ≤ q ∧ q ≤ 90 / 100 := by
  have hlen := digitFrequencies_length data
  have htot := fallbackTotal_eq data
  have hpos : 1 ≤ fallbackTotal (digitFrequencies data) := by
    rw [htot]
    obtain ⟨v, hv, hd⟩ := hvalid
    exact List.countP_pos_iff.2 ⟨v, hv, hd⟩
  have hle : fallbackTotal (digitFrequencies data) ≤ 15 := by
    rw [htot]
    refine (List.countP_le_length _).trans ?_
    simp only [List.length_map, List.length_take]
    omega
  obtain ⟨m, heq, hmin, -⟩ := fallbackCandidates_spec (digitFrequencies data)
  obtain ⟨d, hpick, hmem⟩ :=
    pickCandidate_mem _ r (fallbackCandidates_ne_nil (digitFrequencies data)) h0 h1
  have hd : d < 10 ∧ freqAt (digitFrequencies data) d = m := by
    rw [heq, List.mem_filter, List.mem_range, decide_eq_true_eq] at hmem
    exact hmem
  have hten := ten_min_le_total (digitFrequencies data) hlen m hmin
  have hfreq : freqAt (digitFrequencies data) d = 0 ∨ freqAt (digitFrequencies data) d = 1 := by
    omega
  have hconf := fallbackConfidence_eq (digitFrequencies data) hlen d hd.1 (by omega)
  have hT : (1 : ℚ) ≤ (fallbackTotal (digitFrequencies data) : ℚ) := by exact_mod_cast hpos
  have hTpos : (0 : ℚ) < (fallbackTotal (digitFrequencies data) : ℚ) := by linarith
  cases hdata : data with
  | nil =>
    rw [hdata] at hvalid
    obtain ⟨v, hv, -⟩ := hvalid
    simp at hv
  | cons first rest =>
    rw [← hdata]
    refine ⟨{ issueNumber := incrementIssueNumber first.issueNumber
              prediction := JsInt.int (d : Int)
              confidence := Confidence.fixed2
                (fallbackConfidence (digitFrequencies data) (some d)) },
      d, _, ?_, rfl, hpick, htot, hpos, hle, hfreq, fun h => by omega, ?_, rfl, ?_, ?_⟩
    · unfold fallbackPrediction
      simp only [hpick]
      rw [hdata]
    · show Confidence.fixed2 (fallbackConfidence (digitFrequencies data) (some d)) = _
      rw [hconf]
    · rcases hfreq with h | h
      · rw [h]
        norm_num
      · rw [h]
        have h10 : (10 : ℚ) ≤ (fallbackTotal (digitFrequencies data) : ℚ) := by
          have : 10 ≤ fallbackTotal (digitFrequencies data) := by omega
          exact_mod_cast this
        have hinv : (1 : ℚ) / (fallbackTotal (digitFrequencies data) : ℚ) ≤ 1 / 10 :=
          one_div_le_one_div_of_le (by norm_num) h10
        push_cast
        linarith
    · have hnn : (0 : ℚ) ≤ (freqAt (digitFrequencies data) d : ℚ) /
          (fallbackTotal (digitFrequencies data) : ℚ) :=
        div_nonneg (by exact_mod_cast Nat.zero_le _) hTpos.le
      linarith

/-- C21 at twelve considered values with frequencies `[2,2,1,1,1,1,1,1,1,1]`
and the draw 1/2. -/
theorem c21_fallback_confidence_bounds_witness :
    (0 : ℚ) ≤ 1 / 2 ∧ (1 / 2 : ℚ) < 1 ∧
    digitFrequencies twelveRecords = [2, 2, 1, 1, 1, 1, 1, 1, 1, 1] ∧
    (∃ v ∈ (twelveRecords.take 15).map DataRec.value, isDigitValue v = true) ∧
    ∃ (f : Forecast) (d : Nat) (q : ℚ),
      fallbackPrediction twelveRecords (1 / 2) = some f ∧ f.prediction = JsInt.int (d : Int) ∧
      pickCandidate (fallbackCandidates (digitFrequencies twelveRecords)) (1 / 2) = some d ∧
      fallbackTotal (digitFrequencies twelveRecords) =
        ((twelveRecords.take 15).map DataRec.value).countP isDigitValue ∧
      1 ≤ fallbackTotal (digitFrequencies twelveRecords) ∧
      fallbackTotal (digitFrequencies twelveRecords) ≤ 15 ∧
      (freqAt (digitFrequencies twelveRecords) d = 0 ∨
        freqAt (digitFrequencies twelveRecords) d = 1) ∧
      (fallbackTotal (digitFrequencies twelveRecords) < 10 →
        freqAt (digitFrequencies twelveRecords) d = 0) ∧
      f.confidence = Confidence.fixed2 (JsNumber.fin q) ∧
      q = 6 / 10 + 3 / 10 * (1 - (freqAt (digitFrequencies twelveRecords) d : ℚ) /
        (fallbackTotal (digitFrequencies twelveRecords) : ℚ)) ∧
      87 / 100 ≤ q ∧ q ≤ 90 / 100 :=
  ⟨by norm_num, by norm_num, by decide, by decide,
    c21_fallback_confidence_bounds twelveRecords (1 / 2) (by norm_num) (by norm_num)
      (by decide)⟩

end Akela
